import Mathlib

/-!
# denkigera: reconciliation and command dispatch of the browser client

A shallow embedding of `src/www/app.js`: the snapshot reconciliation of
`fetchAndProcessDevices` (grouping, `transformDeviceData`, `deviceSorter`,
`mapColor`, `mapIcon`) and the command handlers installed by `addEventListeners`
for the bulk toggle, the toggle button, the sliders and the colour buttons; and of
the patch route and `patchDevice` of the proxy `src/denkigera.js`.

Conventions of the embedding.

* A JavaScript property that may be missing is an `Option`; a thrown error is an
  `Except.error`.
* Numbers are `Int` (levels, percentages and colour temperatures are integers).
* The page's mutable globals (`homeData`, `roomColorMap`, `colorIndex`) are passed
  and returned explicitly.
* A JavaScript `Map` and a plain object used as a dictionary are association lists
  in insertion order.
* Network and timer effects are recorded as lists of events.
-/

namespace Denkigera

/-! ## Values -/

/-- A failure raised while the script runs. -/
inductive JsError where
  /-- Reading a property of `undefined`, or calling something that is no function. -/
  | typeError
  /-- The `Error` thrown for a response whose `ok` flag is false. -/
  | httpError (status : Nat)
  /-- A rejected `fetch`. -/
  | networkError
  deriving DecidableEq, Repr

/-- The value found under `attributes.customName`: a string, or a number when the
record is malformed. -/
inductive JsName where
  | str (s : String)
  | num (n : Int)
  deriving DecidableEq, Repr

/-- Truthiness of a name value: the empty string and the number zero are falsy. -/
def JsName.truthy : JsName → Bool
  | .str s => s.data != []
  | .num n => n != 0

/-- The `room` object carried by a device record of the hub. -/
structure ApiRoom where
  id : String
  name : String
  icon : String
  deriving DecidableEq, Repr

/-- The `attributes` object of a device record; every field may be missing. -/
structure Attributes where
  customName : Option JsName
  isOn : Option Bool
  lightLevel : Option Int
  colorTemperature : Option Int
  blindsCurrentLevel : Option Int
  batteryPercentage : Option Int
  deriving DecidableEq, Repr

/-- One raw device record of a snapshot. -/
structure ApiDevice where
  id : String
  type : String
  isReachable : Bool
  room : Option ApiRoom
  attributes : Option Attributes
  deriving DecidableEq, Repr

/-- The display model of a device, as built by `transformDeviceData`. -/
structure Device where
  id : String
  name : JsName
  type : String
  available : Bool
  /-- The source field `on` (a reserved word here). -/
  isOn : Option Bool
  value : Int
  color : Option String
  batteryLevel : Option Int
  deriving DecidableEq, Repr

/-- One entry of `staticColorThemes`. -/
structure Theme where
  header : String
  text : String
  deriving DecidableEq, Repr

/-- What `mapColor` returns: a palette entry, or the member of `Object.prototype`
that a room name such as `constructor` reaches through the prototype chain. -/
inductive ColorValue where
  | theme (t : Theme)
  | inherited (key : String)
  deriving DecidableEq, Repr

/-- What `mapIcon` returns: an icon class, or an inherited member of
`Object.prototype`. -/
inductive IconValue where
  | cls (s : String)
  | inherited (key : String)
  deriving DecidableEq, Repr

/-- A room of `homeData.rooms`. -/
structure Room where
  id : String
  name : String
  color : ColorValue
  icon : IconValue
  isOpen : Bool
  devices : List Device
  controllers : List Device
  deriving DecidableEq, Repr

/-! ## Strings -/

/-- The method `toLowerCase` on the characters of a string (ASCII letters). -/
def lowerChars (cs : List Char) : List Char := cs.map Char.toLower

/-- The method `toLowerCase` on a string. -/
def toLowerCase (s : String) : String := ⟨lowerChars s.data⟩

/-- Does the text begin with the pattern? -/
def startsWithChars : List Char → List Char → Bool
  | [], _ => true
  | _ :: _, [] => false
  | p :: ps, c :: cs => p == c && startsWithChars ps cs

/-- Does the pattern occur somewhere in the text? -/
def includesChars (p : List Char) : List Char → Bool
  | [] => startsWithChars p []
  | c :: cs => startsWithChars p (c :: cs) || includesChars p cs

/-- The method `includes` on strings. -/
def includes (s pat : String) : Bool := includesChars pat.data s.data

/-! ## Numeric-aware comparison -/

/-- A collation unit of a name: a maximal run of decimal digits read as a number,
or a single other character. -/
inductive Token where
  | num (n : Nat)
  | chr (c : Char)
  deriving DecidableEq, Repr

/-- The value of a decimal digit character. -/
def digitValue (c : Char) : Nat := c.toNat - 48

/-- Emit the pending number, if any. -/
def flushNumber : Option Nat → List Token
  | none => []
  | some n => [Token.num n]

/-- Split characters into collation units; `acc` is the number being read. -/
def tokensAux : List Char → Option Nat → List Token
  | [], acc => flushNumber acc
  | c :: cs, acc =>
    if c.isDigit then tokensAux cs (some (acc.getD 0 * 10 + digitValue c))
    else flushNumber acc ++ Token.chr c :: tokensAux cs none

/-- The collation units of a string. -/
def tokens (s : List Char) : List Token := tokensAux s none

/-- Order of two collation units: numbers by value, characters by code point, a
number against a character as the digit zero would be. -/
def compareToken : Token → Token → Int
  | .num m, .num n => if m < n then -1 else if n < m then 1 else 0
  | .chr c, .chr d => if c.toNat < d.toNat then -1 else if d.toNat < c.toNat then 1 else 0
  | .num _, .chr d => if 48 ≤ d.toNat then -1 else 1
  | .chr c, .num _ => if 48 ≤ c.toNat then 1 else -1

/-- Lexicographic order of two lists of collation units. -/
def compareTokens : List Token → List Token → Int
  | [], [] => 0
  | [], _ :: _ => -1
  | _ :: _, [] => 1
  | a :: as, b :: bs =>
    if compareToken a b = 0 then compareTokens as bs else compareToken a b

/-- Modelled from the spec: the host method `String.prototype.localeCompare` called
with the option `numeric: true`, which is no part of the repository. The spec calls
it a locale-aware, numeric-aware alphabetical ordering: here runs of digits compare
by numeric value and all other characters by code point, which is the order of the
root collation on lowercase letters, digits and the space only; accented letters
and punctuation stand elsewhere in a locale's alphabet than their code points say. -/
def localeCompare (a b : String) : Int := compareTokens (tokens a.data) (tokens b.data)

/-! ## The display transform -/

/-- The expression `attributes.customName || apiDevice.type`. -/
def nameOrType (customName : Option JsName) (type : String) : JsName :=
  match customName with
  | some n => if n.truthy then n else JsName.str type
  | none => JsName.str type

/-- The expression `level || 0` on an optional number. -/
def orZero : Option Int → Int
  | some n => if n != 0 then n else 0
  | none => 0

/-- Truthiness of an optional number: missing and zero are falsy. -/
def truthyNumber : Option Int → Bool
  | some n => n != 0
  | none => false

/-- The colour branch of `transformDeviceData` for a light. -/
def lightColor (colorTemperature : Option Int) : String :=
  if truthyNumber colorTemperature then
    if colorTemperature.getD 0 > 3000 then "white"
    else if colorTemperature.getD 0 > 2500 then "yellow"
    else "orange"
  else "yellow"

/-- The function `transformDeviceData`. Reading `attributes.customName` of a record
without `attributes` throws. -/
def transformDeviceData (apiDevice : ApiDevice) : Except JsError Device :=
  match apiDevice.attributes with
  | none => .error JsError.typeError
  | some attributes =>
    let device : Device :=
      { id := apiDevice.id
        name := nameOrType attributes.customName apiDevice.type
        type := apiDevice.type
        available := apiDevice.isReachable
        isOn := attributes.isOn
        value := 0
        color := none
        batteryLevel := none }
    if device.type = "light" then
      .ok { device with
              value := orZero attributes.lightLevel
              color := some (lightColor attributes.colorTemperature) }
    else if device.type = "blinds" ∨ device.type = "controller" then
      let device := { device with batteryLevel := attributes.batteryPercentage }
      if device.type = "blinds" then
        .ok { device with value := orZero attributes.blindsCurrentLevel }
      else .ok device
    else .ok device

/-! ## The comparator and the sort -/

/-- The call `name.toLowerCase()`: a name that is no string has no such method. -/
def lowerName : JsName → Except JsError String
  | .str s => .ok (toLowerCase s)
  | .num _ => .error JsError.typeError

/-- The comparator of two lowercased names, the body of `deviceSorter` after both
names have been lowercased. -/
def compareNames (nameA nameB : String) : Int :=
  let isALeft := includes nameA "left"
  let isARight := includes nameA "right"
  let isBLeft := includes nameB "left"
  let isBRight := includes nameB "right"
  if isALeft && isBRight then -1
  else if isARight && isBLeft then 1
  else localeCompare nameA nameB

/-- The function `deviceSorter`. -/
def deviceSorter (a b : Device) : Except JsError Int := do
  let nameA ← lowerName a.name
  let nameB ← lowerName b.name
  pure (compareNames nameA nameB)

/-- Insert `a` in front of the first element it does not come after. -/
def orderedInsert {α ε : Type} (cmp : α → α → Except ε Int) (a : α) :
    List α → Except ε (List α)
  | [] => .ok [a]
  | b :: l => do
    let c ← cmp a b
    if c ≤ 0 then pure (a :: b :: l)
    else do
      let r ← orderedInsert cmp a l
      pure (b :: r)

/-- The host method `Array.prototype.sort` with a comparator, as a stable insertion
sort. The language fixes the result of a stable sort only for a consistent
comparator; a comparator that throws aborts the sort, and a list of fewer than two
elements is never compared. -/
def sortWith {α ε : Type} (cmp : α → α → Except ε Int) : List α → Except ε (List α)
  | [] => .ok []
  | a :: l => do
    let s ← sortWith cmp l
    orderedInsert cmp a s

/-! ## Colour and icon lookup -/

/-- The constant `staticColorThemes`. -/
def staticColorThemes : List Theme :=
  [ ⟨"#8DBCD4", "#1f2937"⟩, ⟨"#9FB842", "#1f2937"⟩, ⟨"#FFDD51", "#1f2937"⟩,
    ⟨"#E3AA3C", "#1f2937"⟩, ⟨"#FFB7B9", "#1f2937"⟩, ⟨"#DC5D65", "#ffffff"⟩,
    ⟨"#F0DFB5", "#1f2937"⟩, ⟨"#3B6BE0", "#ffffff"⟩ ]

/-- The property names every plain object inherits from `Object.prototype`; each
holds a truthy value. -/
def objectPrototypeKeys : List String :=
  [ "constructor", "__defineGetter__", "__defineSetter__", "hasOwnProperty",
    "__lookupGetter__", "__lookupSetter__", "isPrototypeOf", "propertyIsEnumerable",
    "toString", "valueOf", "__proto__", "toLocaleString" ]

/-- The globals `roomColorMap` and `colorIndex`. -/
structure ColorState where
  roomColorMap : List (String × Theme)
  colorIndex : Nat
  deriving DecidableEq, Repr

/-- The property read `roomColorMap[roomName]`: an own entry, else an inherited
member, else `undefined`. -/
def readColor (roomColorMap : List (String × Theme)) (roomName : String) :
    Option ColorValue :=
  match roomColorMap.lookup roomName with
  | some t => some (ColorValue.theme t)
  | none =>
    if roomName ∈ objectPrototypeKeys then some (ColorValue.inherited roomName) else none

/-- The function `mapColor`, returning the colour and the updated globals. -/
def mapColor (roomName : String) (cs : ColorState) : ColorValue × ColorState :=
  match readColor cs.roomColorMap roomName with
  | some v => (v, cs)
  | none =>
    let t := staticColorThemes.getD (cs.colorIndex % staticColorThemes.length) ⟨"", ""⟩
    (ColorValue.theme t,
      { roomColorMap := cs.roomColorMap ++ [(roomName, t)]
        colorIndex := cs.colorIndex + 1 })

/-- The table `iconMapping` of `mapIcon`. -/
def iconMapping : List (String × String) :=
  [ ("rooms_sofa", "fa-couch"), ("rooms_bed", "fa-bed"), ("rooms_desk", "fa-briefcase"),
    ("rooms_sink", "fa-bath"), ("rooms_cutlery", "fa-utensils") ]

/-- The function `mapIcon`. -/
def mapIcon (ikeaIcon : String) : IconValue :=
  match iconMapping.lookup ikeaIcon with
  | some c => IconValue.cls c
  | none =>
    if ikeaIcon ∈ objectPrototypeKeys then IconValue.inherited ikeaIcon
    else IconValue.cls "fa-home"

/-! ## Reconciliation -/

/-- The method `Map.prototype.set` on an association list: an existing key keeps
its place and takes the new value, a new key is appended. -/
def mapSet {β : Type} (m : List (String × β)) (k : String) (v : β) : List (String × β) :=
  match m with
  | [] => [(k, v)]
  | (k0, v0) :: rest => if k0 = k then (k, v) :: rest else (k0, v0) :: mapSet rest k v

/-- The map `existingRoomStates` built from `homeData.rooms`. -/
def existingRoomStates (previousRooms : List Room) : List (String × Bool) :=
  previousRooms.foldl (fun m room => mapSet m room.id room.isOpen) []

/-- The expression
`existingRoomStates.has(roomId) ? existingRoomStates.get(roomId) : true`. -/
def openState (states : List (String × Bool)) (roomId : String) : Bool :=
  match states.lookup roomId with
  | some b => b
  | none => true

/-- The filter that selects `relevantDevices`. -/
def isRelevant (d : ApiDevice) : Bool :=
  (d.type ∈ ["light", "blinds", "controller"]) && d.room.isSome

/-- The test `roomsMap.has(roomId)`. -/
def hasRoom (roomsMap : List Room) (roomId : String) : Bool :=
  roomsMap.any (fun r => r.id == roomId)

/-- The two `push` branches on the room a device belongs to. -/
def addToRoom (type : String) (t : Device) (room : Room) : Room :=
  if type = "light" ∨ type = "blinds" then { room with devices := room.devices ++ [t] }
  else if type = "controller" then { room with controllers := room.controllers ++ [t] }
  else room

/-- The lines `const room = roomsMap.get(roomId)` and the `push` on it. -/
def pushDevice (roomId type : String) (t : Device) : List Room → List Room
  | [] => []
  | r :: rs =>
    if r.id = roomId then addToRoom type t r :: rs
    else r :: pushDevice roomId type t rs

/-- The block `if (!roomsMap.has(roomId)) { ... }` that creates the room of a device
on its first appearance. -/
def ensureRoom (states : List (String × Bool)) (roomObj : ApiRoom) (cs : ColorState)
    (roomsMap : List Room) : ColorState × List Room :=
  let roomId := roomObj.id
  if hasRoom roomsMap roomId then (cs, roomsMap)
  else
    let mappedIcon := mapIcon roomObj.icon
    let colored := mapColor roomObj.name cs
    (colored.2,
      roomsMap ++
        [{ id := roomId
           name := roomObj.name
           color := colored.1
           icon := mappedIcon
           isOpen := openState states roomId
           devices := []
           controllers := [] }])

/-- The loop `relevantDevices.forEach(...)`, run over the devices still to visit
with the colour globals and the `roomsMap` built so far. The colour globals keep
the changes made before a throw. -/
def groupDevices (states : List (String × Bool)) :
    List ApiDevice → ColorState → List Room → ColorState × Except JsError (List Room)
  | [], cs, roomsMap => (cs, .ok roomsMap)
  | device :: rest, cs, roomsMap =>
    match device.room with
    | none => groupDevices states rest cs roomsMap
    | some roomObj =>
      let created := ensureRoom states roomObj cs roomsMap
      match transformDeviceData device with
      | .error e => (created.1, .error e)
      | .ok transformedDevice =>
        groupDevices states rest created.1
          (pushDevice roomObj.id device.type transformedDevice created.2)

/-- The body of `roomsMap.forEach` that sorts both lists of a room. -/
def sortRoom (room : Room) : Except JsError Room := do
  let devices ← sortWith deviceSorter room.devices
  let controllers ← sortWith deviceSorter room.controllers
  pure { room with devices := devices, controllers := controllers }

/-- The loop `roomsMap.forEach(room => ...)` that sorts every room. -/
def sortRooms : List Room → Except JsError (List Room)
  | [] => .ok []
  | room :: rest => do
    let sorted ← sortRoom room
    let others ← sortRooms rest
    pure (sorted :: others)

/-- The reconciliation inside the `try` block of `fetchAndProcessDevices`: from the
previous rooms, the fetched snapshot and the colour globals to the new room list
(or the error thrown) and the colour globals afterwards. -/
def reconcile (previousRooms : List Room) (apiDevices : List ApiDevice)
    (cs : ColorState) : ColorState × Except JsError (List Room) :=
  let relevantDevices := apiDevices.filter isRelevant
  let states := existingRoomStates previousRooms
  let grouped := groupDevices states relevantDevices cs []
  match grouped.2 with
  | .error e => (grouped.1, .error e)
  | .ok roomsMap => (grouped.1, sortRooms roomsMap)

/-- The global `homeData` together with the colour globals. -/
structure Page where
  rooms : List Room
  colors : ColorState
  deriving DecidableEq, Repr

/-- The outcome of `fetch` followed by `response.json()`. -/
inductive FetchResult where
  /-- The request itself was rejected. -/
  | rejected
  /-- A response arrived with `ok` false. -/
  | notOk (status : Nat)
  /-- A response arrived with `ok` true and this device list as body. -/
  | devices (apiDevices : List ApiDevice)
  deriving DecidableEq, Repr

/-- The function `fetchAndProcessDevices` on the page globals: the page afterwards
and the error the returned promise is rejected with, if any. The request and the
status test stand ahead of the `try` block; an error thrown inside the block is
caught, and `homeData.rooms` is assigned only when none is thrown. -/
def fetchAndProcessDevices (result : FetchResult) (page : Page) : Page × Option JsError :=
  match result with
  | .rejected => (page, some JsError.networkError)
  | .notOk status => (page, some (JsError.httpError status))
  | .devices apiDevices =>
    let r := reconcile page.rooms apiDevices page.colors
    match r.2 with
    | .error _ => ({ page with colors := r.1 }, none)
    | .ok rooms => ({ rooms := rooms, colors := r.1 }, none)

/-! ## Commands -/

/-- A value inside an attribute patch. -/
inductive AttrValue where
  | bool (b : Bool)
  | num (n : Int)
  deriving DecidableEq, Repr

/-- What a handler does to the outside world, in program order. -/
inductive Effect where
  /-- The call `updateDevice(deviceId, attributes)` issued its `PATCH` request. -/
  | patchIssued (deviceId : String) (attributes : List (String × AttrValue))
  /-- The awaited `updateDevice` call for this device completed. -/
  | patchCompleted (deviceId : String)
  /-- An awaited `setTimeout` of this many time units elapsed. -/
  | delay (units : Nat)
  /-- A call of `fetchAndProcessDevices`. -/
  | refetch
  /-- A call of `renderRooms`. -/
  | render
  deriving DecidableEq, Repr

/-- Truthiness of the stored `on` flag; a missing flag is falsy. -/
def truthyFlag : Option Bool → Bool
  | some b => b
  | none => false

/-- The payload built for one device inside the bulk toggle loop. -/
def bulkPayload (turnOn : Bool) (device : Device) : List (String × AttrValue) :=
  let newValue : Int := if turnOn then 100 else 0
  if device.type = "light" then
    [("isOn", AttrValue.bool turnOn), ("lightLevel", AttrValue.num newValue)]
  else [("blindsTargetLevel", AttrValue.num newValue)]

/-- The loop `for (const device of devicesToUpdate)` of the bulk toggle: each
`updateDevice` call and each pause is awaited before the next iteration. -/
def sendSequentially (turnOn : Bool) : List Device → List Effect
  | [] => []
  | device :: rest =>
    Effect.patchIssued device.id (bulkPayload turnOn device) ::
      Effect.patchCompleted device.id :: Effect.delay 150 :: sendSequentially turnOn rest

/-- The target state `turnOn` of the bulk toggle. -/
def bulkTarget (room : Room) : Bool :=
  room.devices.any (fun d => d.available && !truthyFlag d.isOn)

/-- The click handler of `.room-toggle-all-icon`: `spinning` tells whether the icon
already shows the spinner. -/
def roomToggleAllClick (spinning : Bool) (roomIndex : Nat) (page : Page) :
    Except JsError (List Effect) :=
  if spinning then .ok []
  else
    match page.rooms[roomIndex]? with
    | none => .error JsError.typeError
    | some room =>
      let turnOn := bulkTarget room
      let devicesToUpdate := room.devices.filter (fun d => d.available)
      .ok (sendSequentially turnOn devicesToUpdate ++ [Effect.refetch])

/-- The device `homeData.rooms[roomIndex].devices[deviceIndex]`. -/
def deviceAt (page : Page) (roomIndex deviceIndex : Nat) : Option Device :=
  match page.rooms[roomIndex]? with
  | none => none
  | some room => room.devices[deviceIndex]?

/-- Store a changed device back at its place in `homeData`. -/
def setDeviceAt (page : Page) (roomIndex deviceIndex : Nat) (device : Device) : Page :=
  match page.rooms[roomIndex]? with
  | none => page
  | some room =>
    { page with
        rooms := page.rooms.set roomIndex
          { room with devices := room.devices.set deviceIndex device } }

/-- The colour temperature a colour button sends. -/
def colorTemperatureOf (color : String) : Int :=
  if color = "white" then 4000 else if color = "yellow" then 2700 else 2200

/-- The click handler of `.color-btn`. -/
def colorButtonClick (roomIndex deviceIndex : Nat) (color : String) (page : Page) :
    Except JsError (Page × List Effect) :=
  match deviceAt page roomIndex deviceIndex with
  | none => .error JsError.typeError
  | some device =>
    let temp := colorTemperatureOf color
    .ok (setDeviceAt page roomIndex deviceIndex { device with color := some color },
      [ Effect.patchIssued device.id
          [("colorTemperature", AttrValue.num temp), ("lightLevel", AttrValue.num device.value)],
        Effect.render ])

/-- A pending `setTimeout` callback of a slider: when it is due and the
`updateDevice` call it will make. -/
structure Timer where
  fireAt : Nat
  deviceId : String
  attributes : List (String × AttrValue)
  deriving DecidableEq, Repr

/-- A patch request together with the time at which it was dispatched. -/
structure Dispatch where
  time : Nat
  deviceId : String
  attributes : List (String × AttrValue)
  deriving DecidableEq, Repr

/-- The `input` handler of one `.device-slider` at time `now`: the variable
`debounceTimer` of its closure is cleared and set anew. -/
def sliderInput (roomIndex deviceIndex : Nat) (newValue : Int) (now : Nat) (page : Page)
    (_debounceTimer : Option Timer) : Except JsError (Page × Option Timer) :=
  match deviceAt page roomIndex deviceIndex with
  | none => .error JsError.typeError
  | some device =>
    let payload : List (String × AttrValue) :=
      if device.type = "light" then [("lightLevel", AttrValue.num newValue)]
      else [("blindsTargetLevel", AttrValue.num newValue)]
    .ok (page, some { fireAt := now + 250, deviceId := device.id, attributes := payload })

/-- Let the pending timer run if it is due at time `now`. -/
def fireDue (now : Nat) : Option Timer → Option Timer × List Dispatch
  | none => (none, [])
  | some t =>
    if t.fireAt ≤ now then (none, [⟨t.fireAt, t.deviceId, t.attributes⟩])
    else (some t, [])

/-- One slider under a sequence of ticks `(time, value)` given in order of time:
the patch requests dispatched, the last pending timer being left to run. -/
def sliderRun (roomIndex deviceIndex : Nat) (page : Page) :
    List (Nat × Int) → Option Timer → Except JsError (List Dispatch)
  | [], pending =>
    match pending with
    | none => .ok []
    | some t => .ok [⟨t.fireAt, t.deviceId, t.attributes⟩]
  | (now, newValue) :: rest, pending =>
    let fired := fireDue now pending
    match sliderInput roomIndex deviceIndex newValue now page fired.1 with
    | .error e => .error e
    | .ok next =>
      match sliderRun roomIndex deviceIndex next.1 rest next.2 with
      | .error e => .error e
      | .ok later => .ok (fired.2 ++ later)

/-! ## Auxiliary notions for the proofs -/

/-- The fields of a room that are fixed when the room is created. -/
def Room.header (r : Room) : String × String × ColorValue × IconValue × Bool :=
  (r.id, r.name, r.color, r.icon, r.isOpen)

/-- The devices list of the first room with the given id, empty when there is none. -/
def devicesOf (rooms : List Room) (id : String) : List Device :=
  match rooms.find? (fun r => r.id == id) with
  | some r => r.devices
  | none => []

/-- The controllers list of the first room with the given id, empty when there is
none. -/
def controllersOf (rooms : List Room) (id : String) : List Device :=
  match rooms.find? (fun r => r.id == id) with
  | some r => r.controllers
  | none => []

/-- Every entry readable in the first colour map reads the same in the second. -/
def ColorState.Extends (cs cs2 : ColorState) : Prop :=
  ∀ n v, readColor cs.roomColorMap n = some v → readColor cs2.roomColorMap n = some v

/-- Every room carries the open state read from the previous rooms. -/
def OpenFrom (states : List (String × Bool)) (rooms : List Room) : Prop :=
  ∀ r ∈ rooms, r.isOpen = openState states r.id

/-! ## Sample data -/

/-- A reachable device record with a name, a lit state and a level. -/
def sampleDevice (id name type : String) (isOn : Bool) (level : Int) (room : ApiRoom) :
    ApiDevice :=
  { id := id
    type := type
    isReachable := true
    room := some room
    attributes := some
      { customName := some (JsName.str name)
        isOn := some isOn
        lightLevel := some level
        colorTemperature := some 2700
        blindsCurrentLevel := some level
        batteryPercentage := some 80 } }

/-- A living room, known from the previous snapshot. -/
def livingRoom : ApiRoom := ⟨"r1", "Living", "rooms_sofa"⟩

/-- A bedroom, not seen before. -/
def bedRoom : ApiRoom := ⟨"r2", "Bed", "rooms_bed"⟩

/-- A snapshot with a gateway, two rooms and a device without room. -/
def sampleSnapshot : List ApiDevice :=
  [ { id := "gw", type := "gateway", isReachable := true, room := none, attributes := none },
    sampleDevice "d1" "Right Blind" "blinds" true 40 livingRoom,
    sampleDevice "d2" "Lamp 10" "light" true 63 bedRoom,
    sampleDevice "d3" "Left Blind" "blinds" false 0 livingRoom,
    sampleDevice "d4" "Remote" "controller" true 0 livingRoom,
    sampleDevice "d5" "Lamp 2" "light" false 0 bedRoom,
    { sampleDevice "d6" "Stray" "light" true 10 bedRoom with room := none },
    sampleDevice "d7" "Sensor" "sensor" true 0 bedRoom ]

/-- The previous rooms: the living room, collapsed by the user. -/
def samplePrevious : List Room :=
  [ { id := "r1", name := "Living", color := ColorValue.theme ⟨"#8DBCD4", "#1f2937"⟩,
      icon := IconValue.cls "fa-couch", isOpen := false, devices := [], controllers := [] } ]

/-- The colour globals after the living room has been coloured. -/
def sampleColors : ColorState := ⟨[("Living", ⟨"#8DBCD4", "#1f2937"⟩)], 1⟩

/-- The display model of a sample device. -/
def sampleShown (id name type : String) (isOn : Bool) (value : Int) (color : Option String)
    (batteryLevel : Option Int) : Device :=
  { id := id, name := JsName.str name, type := type, available := true, isOn := some isOn,
    value := value, color := color, batteryLevel := batteryLevel }

/-- The rooms that reconciling `sampleSnapshot` over `samplePrevious` gives. -/
def sampleRooms : List Room :=
  [ { id := "r1", name := "Living", color := ColorValue.theme ⟨"#8DBCD4", "#1f2937"⟩,
      icon := IconValue.cls "fa-couch", isOpen := false,
      devices :=
        [ sampleShown "d3" "Left Blind" "blinds" false 0 none (some 80),
          sampleShown "d1" "Right Blind" "blinds" true 40 none (some 80) ],
      controllers := [ sampleShown "d4" "Remote" "controller" true 0 none (some 80) ] },
    { id := "r2", name := "Bed", color := ColorValue.theme ⟨"#9FB842", "#1f2937"⟩,
      icon := IconValue.cls "fa-bed", isOpen := true,
      devices :=
        [ sampleShown "d5" "Lamp 2" "light" false 0 (some "yellow") none,
          sampleShown "d2" "Lamp 10" "light" true 63 (some "yellow") none ],
      controllers := [] } ]

/-- The colour globals after reconciling `sampleSnapshot`. -/
def sampleColorsAfter : ColorState :=
  ⟨[("Living", ⟨"#8DBCD4", "#1f2937"⟩), ("Bed", ⟨"#9FB842", "#1f2937"⟩)], 2⟩

/-- The room ids after visiting the devices: each room id is appended on its first
appearance. -/
def roomIdsAfter : List ApiDevice → List String → List String
  | [], ids => ids
  | d :: rest, ids =>
    match d.room with
    | none => roomIdsAfter rest ids
    | some roomObj =>
      roomIdsAfter rest (if roomObj.id ∈ ids then ids else ids ++ [roomObj.id])

/-- Does the device carry a room reference with this id? -/
def belongsTo (id : String) (d : ApiDevice) : Bool :=
  match d.room with
  | none => false
  | some roomObj => roomObj.id == id

/-- Is the device a light or a blind? -/
def isLightOrBlinds (d : ApiDevice) : Bool := d.type == "light" || d.type == "blinds"

/-- Is the device a controller? -/
def isController (d : ApiDevice) : Bool := d.type == "controller"

/-- The display model `t` is what `transformDeviceData` returns for `d`. -/
def Shows (d : ApiDevice) (t : Device) : Prop := transformDeviceData d = .ok t

/-- Does the lowercased name of the device contain the token? A name that is no
string has no lowercased form. -/
def nameHas (d : Device) (token : String) : Bool :=
  match d.name with
  | .str s => includes (toLowerCase s) token
  | .num _ => false

/-- The comparator returns a value that is zero or negative for the pair. -/
def comesBefore {α ε : Type} (cmp : α → α → Except ε Int) (x y : α) : Bool :=
  match cmp x y with
  | .ok c => decide (c ≤ 0)
  | .error _ => false

/-- Every device of the list that has `left` in its lowercased name stands before
every device that has `right` in it. -/
def LeftBeforeRight (l : List Device) : Prop :=
  ∀ (i j : Nat) (a b : Device), l[i]? = some a → l[j]? = some b →
    nameHas a "left" = true → nameHas b "right" = true → i < j

/-- A hallway holding three lamps, one of which has `right` inside `Bright`. -/
def hallway : ApiRoom := ⟨"r3", "Hall", "rooms_desk"⟩

/-- A room holding one lamp whose name has both direction tokens. -/
def study : ApiRoom := ⟨"r4", "Study", "rooms_desk"⟩

/-- A snapshot whose names defeat the direction rule. -/
def directionSnapshot : List ApiDevice :=
  [ sampleDevice "h1" "Bright Lamp" "light" true 50 hallway,
    sampleDevice "h2" "Desk Lamp" "light" true 50 hallway,
    sampleDevice "h3" "Left Lamp" "light" true 50 hallway,
    sampleDevice "s1" "Bright Left Lamp" "light" true 50 study ]

/-- The rooms that reconciling `directionSnapshot` gives. -/
def directionRooms : List Room :=
  [ { id := "r3", name := "Hall", color := ColorValue.theme ⟨"#8DBCD4", "#1f2937"⟩,
      icon := IconValue.cls "fa-briefcase", isOpen := true,
      devices :=
        [ sampleShown "h1" "Bright Lamp" "light" true 50 (some "yellow") none,
          sampleShown "h2" "Desk Lamp" "light" true 50 (some "yellow") none,
          sampleShown "h3" "Left Lamp" "light" true 50 (some "yellow") none ],
      controllers := [] },
    { id := "r4", name := "Study", color := ColorValue.theme ⟨"#9FB842", "#1f2937"⟩,
      icon := IconValue.cls "fa-briefcase", isOpen := true,
      devices := [ sampleShown "s1" "Bright Left Lamp" "light" true 50 (some "yellow") none ],
      controllers := [] } ]

/-- The number written by a run of decimal digits. -/
def digitsValue (ds : List Char) : Nat :=
  ds.foldl (fun acc c => acc * 10 + digitValue c) 0

/-- The device ids of the patch requests among the effects, in order. -/
def patchedIds (effects : List Effect) : List String :=
  effects.filterMap (fun e =>
    match e with
    | .patchIssued deviceId _ => some deviceId
    | _ => none)

/-- A room of three lights and one blind for the bulk toggle: the lit state of the
lights is given, the blind is not reachable; a remote sits among the controllers. -/
def bulkRoom (on1 on2 on3 : Bool) : Room :=
  { id := "r1", name := "Living", color := ColorValue.theme ⟨"#8DBCD4", "#1f2937"⟩,
    icon := IconValue.cls "fa-couch", isOpen := true,
    devices :=
      [ sampleShown "a" "Lamp 1" "light" on1 50 (some "yellow") none,
        { sampleShown "x" "Blind" "blinds" false 0 none (some 80) with available := false },
        sampleShown "b" "Lamp 2" "light" on2 50 (some "yellow") none,
        sampleShown "c" "Lamp 3" "light" on3 50 (some "yellow") none ],
    controllers := [ sampleShown "k" "Remote" "controller" true 0 none (some 80) ] }

/-- The payload a slider sends for a device and a value. -/
def sliderPayload (device : Device) (newValue : Int) : List (String × AttrValue) :=
  if device.type = "light" then [("lightLevel", AttrValue.num newValue)]
  else [("blindsTargetLevel", AttrValue.num newValue)]

/-- Each tick follows the one before it, by less than the quiet period. -/
def isRapid : List (Nat × Int) → Bool
  | [] => true
  | [_] => true
  | a :: b :: rest => decide (a.1 ≤ b.1) && decide (b.1 < a.1 + 250) && isRapid (b :: rest)

/-- The page after the sample reconciliation. -/
def samplePage : Page := ⟨sampleRooms, sampleColorsAfter⟩

/-- The patch requests among the effects, in order: device id and attributes. -/
def patches (effects : List Effect) : List (String × List (String × AttrValue)) :=
  effects.filterMap (fun e =>
    match e with
    | .patchIssued deviceId attributes => some (deviceId, attributes)
    | _ => none)

/-! ## The proxy server -/

/-- A JSON value, as `express.json()` hands it to a route. -/
inductive JsonValue where
  | null
  | bool (b : Bool)
  | num (n : Int)
  | str (s : String)
  | arr (items : List JsonValue)
  | obj (fields : List (String × JsonValue))

/-- Truthiness of a JSON value: `null`, `false`, zero and the empty string are
falsy. -/
def JsonValue.truthy : JsonValue → Bool
  | .null => false
  | .bool b => b
  | .num n => n != 0
  | .str s => s.data != []
  | .arr _ => true
  | .obj _ => true

/-- The expression `Object.keys(value).length` for a value that is not `null`: the
fields of an object, the indices of an array or a string, none for a boolean or a
number. -/
def JsonValue.keyCount : JsonValue → Nat
  | .null => 0
  | .bool _ => 0
  | .num _ => 0
  | .str s => s.data.length
  | .arr items => items.length
  | .obj fields => fields.length

/-- A request sent to the hub by `apiClient`. -/
structure HubRequest where
  method : String
  path : String
  body : JsonValue

/-- The function `patchDevice` of `denkigera.js`: the request it sends to the hub. -/
def patchDevice (deviceId : String) (attributes : JsonValue) : HubRequest :=
  { method := "PATCH"
    path := "/devices/" ++ deviceId
    body := JsonValue.arr [JsonValue.obj [("attributes", attributes)]] }

/-- The answer of the proxy to its caller. -/
structure Reply where
  status : Nat
  text : String
  deriving DecidableEq, Repr

/-- The route `app.patch` for `/devices/:deviceId`: `attributes` is the field
`req.body.attributes`, missing when the body has none, and `hubFails` tells whether
the hub call is rejected. The result is the reply and the hub calls made. -/
def patchRoute (deviceId : String) (attributes : Option JsonValue) (hubFails : Bool) :
    Reply × List HubRequest :=
  match attributes with
  | none => (⟨400, "Bad Request: 'attributes' payload is missing or empty."⟩, [])
  | some value =>
    if !value.truthy || value.keyCount == 0 then
      (⟨400, "Bad Request: 'attributes' payload is missing or empty."⟩, [])
    else if hubFails then (⟨500, "Error updating device"⟩, [patchDevice deviceId value])
    else (⟨204, ""⟩, [patchDevice deviceId value])

/-! ## The toggle button of one device -/

/-- The payload of the toggle button: a light gets `isOn`, and `lightLevel` only when
it is turned on; any other device gets `blindsTargetLevel`. -/
def togglePayload (device : Device) (newIsOn : Bool) (newValue : Int) :
    List (String × AttrValue) :=
  let payload : List (String × AttrValue) :=
    if device.type = "light" then [("isOn", AttrValue.bool newIsOn)]
    else [("blindsTargetLevel", AttrValue.num newValue)]
  if device.type = "light" ∧ newIsOn = true then payload ++ [("lightLevel", AttrValue.num 100)]
  else payload

/-- The click handler of `.device-toggle-btn`. -/
def deviceToggleClick (roomIndex deviceIndex : Nat) (page : Page) :
    Except JsError (Page × List Effect) :=
  match deviceAt page roomIndex deviceIndex with
  | none => .error JsError.typeError
  | some device =>
    let newIsOn := !truthyFlag device.isOn
    let newValue : Int := if newIsOn then 100 else 0
    let payload := togglePayload device newIsOn newValue
    .ok (setDeviceAt page roomIndex deviceIndex
          { device with isOn := some newIsOn, value := newValue },
      [Effect.patchIssued device.id payload, Effect.render])

/-- Every device in both lists of every room has a string for its name. -/
def NamesAreStrings (rooms : List Room) : Prop :=
  ∀ r ∈ rooms, ∀ d ∈ r.devices ++ r.controllers, ∃ s, d.name = JsName.str s

/-- The record has an `attributes` object whose `customName` is missing, a string, or
the number zero. -/
def WellFormed (d : ApiDevice) : Prop :=
  ∃ a, d.attributes = some a ∧ ∀ n, a.customName = some (JsName.num n) → n = 0

/-- A snapshot with one light that has no `attributes` object. -/
def bareSnapshot : List ApiDevice :=
  [ sampleDevice "d1" "Right Blind" "blinds" true 40 livingRoom,
    { id := "d9", type := "light", isReachable := true, room := some bedRoom, attributes := none } ]

/-- A snapshot with two lights in one room, one of which has a number for its name. -/
def numberedSnapshot : List ApiDevice :=
  [ sampleDevice "d2" "Lamp 10" "light" true 63 bedRoom,
    { id := "d8", type := "light", isReachable := true, room := some bedRoom,
      attributes := some
        { customName := some (JsName.num 5), isOn := some true, lightLevel := some 20,
          colorTemperature := none, blindsCurrentLevel := none, batteryPercentage := none } } ]

/-- A session of `mapColor` calls, one per room name in order: the values returned
and the colour globals afterwards. -/
def mapColorAll : List String → ColorState → List ColorValue × ColorState
  | [], cs => ([], cs)
  | roomName :: rest, cs =>
    let first := mapColor roomName cs
    let others := mapColorAll rest first.2
    (first.1 :: others.1, others.2)

/-- In the list, a device of room `x` stands ahead of every device of room `y`. -/
def FirstSeenBefore (ds : List ApiDevice) (x y : String) : Prop :=
  ∃ pre d post, ds = pre ++ d :: post ∧ belongsTo x d = true ∧
    ∀ e ∈ pre, belongsTo y e = false

/-- The snapshot `directionSnapshot` with the hallway lamps in another order. -/
def directionSnapshotPermuted : List ApiDevice :=
  [ sampleDevice "h3" "Left Lamp" "light" true 50 hallway,
    sampleDevice "h1" "Bright Lamp" "light" true 50 hallway,
    sampleDevice "h2" "Desk Lamp" "light" true 50 hallway,
    sampleDevice "s1" "Bright Left Lamp" "light" true 50 study ]

/-- The names in the devices list of every room of a reconciliation result. -/
def deviceNames (result : ColorState × Except JsError (List Room)) :
    Except JsError (List (List JsName)) :=
  result.2.map (fun rooms => rooms.map (fun r => r.devices.map (fun t => t.name)))

/-- A snapshot of one room whose names hold the direction tokens as whole words,
with a lamp between them in alphabetical order. -/
def wordSnapshot : List ApiDevice :=
  [ sampleDevice "w1" "Door Right" "blinds" true 50 hallway,
    sampleDevice "w2" "Lamp" "light" true 50 hallway,
    sampleDevice "w3" "Window Left" "blinds" true 50 hallway ]

/-! # Theorems -/

/-! ## The map of previous open states -/

theorem lookup_mapSet {β : Type} (m : List (String × β)) (k k' : String) (v : β) :
    (mapSet m k v).lookup k' = if k' = k then some v else m.lookup k' := by
  induction m with
  | nil =>
    by_cases h : k' = k
    · simp [mapSet, List.lookup, h]
    · have hb : (k' == k) = false := by simpa using h
      simp [mapSet, List.lookup, h, hb]
  | cons kv rest ih =>
    obtain ⟨k0, v0⟩ := kv
    by_cases h0 : k0 = k
    · by_cases h : k' = k
      · simp [mapSet, List.lookup, h0, h]
      · have hb : (k' == k) = false := by simpa using h
        simp [mapSet, List.lookup, h0, h, hb]
    · by_cases h : k' = k
      · subst h
        have hb : (k' == k0) = false := by simpa using fun e => h0 e.symm
        simp [mapSet, List.lookup, h0, hb, ih]
      · by_cases h1 : k' = k0
        · simp [mapSet, List.lookup, h0, h1]
        · have hb : (k' == k0) = false := by simpa using h1
          simp [mapSet, List.lookup, h0, hb, ih, h]

theorem lookup_foldl_mapSet_of_ne (post : List Room) (m : List (String × Bool)) (id : String)
    (h : ∀ q ∈ post, q.id ≠ id) :
    (post.foldl (fun m room => mapSet m room.id room.isOpen) m).lookup id = m.lookup id := by
  induction post generalizing m with
  | nil => rfl
  | cons q rest ih =>
    have hq : q.id ≠ id := h q (List.mem_cons_self _ _)
    have hrest : ∀ x ∈ rest, x.id ≠ id := fun x hx => h x (List.mem_cons_of_mem _ hx)
    rw [List.foldl_cons, ih _ hrest, lookup_mapSet]
    simp [Ne.symm hq]

theorem openState_existing_last (pre post : List Room) (p : Room)
    (h : ∀ q ∈ post, q.id ≠ p.id) :
    openState (existingRoomStates (pre ++ p :: post)) p.id = p.isOpen := by
  unfold openState existingRoomStates
  rw [List.foldl_append, List.foldl_cons, lookup_foldl_mapSet_of_ne _ _ _ h, lookup_mapSet]
  simp

theorem openState_existing_none (previousRooms : List Room) (id : String)
    (h : ∀ p ∈ previousRooms, p.id ≠ id) :
    openState (existingRoomStates previousRooms) id = true := by
  unfold openState existingRoomStates
  rw [lookup_foldl_mapSet_of_ne _ _ _ h]
  rfl

/-! ## Grouping keeps the room headers -/

theorem addToRoom_header (type : String) (t : Device) (r : Room) :
    (addToRoom type t r).header = r.header := by
  unfold addToRoom
  split
  · rfl
  · split <;> rfl

theorem pushDevice_map_header (roomId type : String) (t : Device) (rooms : List Room) :
    (pushDevice roomId type t rooms).map Room.header = rooms.map Room.header := by
  induction rooms with
  | nil => rfl
  | cons r rs ih =>
    unfold pushDevice
    split
    · simp [addToRoom_header]
    · simp [ih]

theorem hasRoom_iff (rooms : List Room) (id : String) :
    hasRoom rooms id = true ↔ ∃ r ∈ rooms, r.id = id := by
  simp [hasRoom]

theorem sortRoom_header {room sorted : Room} (h : sortRoom room = .ok sorted) :
    sorted.header = room.header := by
  unfold sortRoom at h
  cases hd : sortWith deviceSorter room.devices with
  | error e => simp [hd, bind, Except.bind] at h
  | ok ds =>
    cases hc : sortWith deviceSorter room.controllers with
    | error e => simp [hd, hc, bind, Except.bind] at h
    | ok cs =>
      simp [hd, hc, bind, Except.bind, pure, Except.pure] at h
      subst h
      rfl

theorem sortRooms_map_header {rooms sorted : List Room} (h : sortRooms rooms = .ok sorted) :
    sorted.map Room.header = rooms.map Room.header := by
  induction rooms generalizing sorted with
  | nil =>
    simp [sortRooms] at h
    subst h
    rfl
  | cons r rs ih =>
    unfold sortRooms at h
    cases hr : sortRoom r with
    | error e => simp [hr, bind, Except.bind] at h
    | ok r1 =>
      cases hs : sortRooms rs with
      | error e => simp [hr, hs, bind, Except.bind] at h
      | ok rs1 =>
        simp [hr, hs, bind, Except.bind, pure, Except.pure] at h
        subst h
        simp [sortRoom_header hr, ih hs]

theorem openFrom_of_map_header {states : List (String × Bool)} {a b : List Room}
    (h : a.map Room.header = b.map Room.header) (hb : OpenFrom states b) :
    OpenFrom states a := by
  intro r hr
  have hm : r.header ∈ b.map Room.header := by
    rw [← h]
    exact List.mem_map_of_mem _ hr
  obtain ⟨m, hmb, hme⟩ := List.mem_map.mp hm
  have h1 := hb m hmb
  simp only [Room.header, Prod.mk.injEq] at hme
  rw [← hme.1, ← hme.2.2.2.2]
  exact h1

theorem ensureRoom_openFrom (states : List (String × Bool)) (roomObj : ApiRoom)
    (cs : ColorState) (rooms : List Room) (h : OpenFrom states rooms) :
    OpenFrom states (ensureRoom states roomObj cs rooms).2 := by
  unfold ensureRoom
  by_cases hh : hasRoom rooms roomObj.id = true
  · simpa [hh] using h
  · simp only [hh]
    intro r hr
    simp only [Bool.false_eq_true, if_false, List.mem_append, List.mem_singleton] at hr
    rcases hr with hr | hr
    · exact h r hr
    · subst hr
      rfl

theorem groupDevices_openFrom (states : List (String × Bool)) (ds : List ApiDevice) :
    ∀ (cs : ColorState) (rooms : List Room) (cs2 : ColorState) (out : List Room),
      OpenFrom states rooms → groupDevices states ds cs rooms = (cs2, .ok out) →
      OpenFrom states out := by
  induction ds with
  | nil =>
    intro cs rooms cs2 out h hg
    simp [groupDevices] at hg
    rw [← hg.2]
    exact h
  | cons d rest ih =>
    intro cs rooms cs2 out h hg
    unfold groupDevices at hg
    cases hroom : d.room with
    | none =>
      simp only [hroom] at hg
      exact ih cs rooms cs2 out h hg
    | some roomObj =>
      simp only [hroom] at hg
      cases ht : transformDeviceData d with
      | error e => simp [ht] at hg
      | ok t =>
        simp only [ht] at hg
        refine ih _ _ cs2 out ?_ hg
        exact openFrom_of_map_header (pushDevice_map_header _ _ _ _)
          (ensureRoom_openFrom states roomObj cs rooms h)

theorem reconcile_ok {previousRooms : List Room} {apiDevices : List ApiDevice}
    {cs cs2 : ColorState} {out : List Room}
    (h : reconcile previousRooms apiDevices cs = (cs2, .ok out)) :
    ∃ grouped, groupDevices (existingRoomStates previousRooms)
        (apiDevices.filter isRelevant) cs [] = (cs2, .ok grouped) ∧
      sortRooms grouped = .ok out := by
  unfold reconcile at h
  cases hg : groupDevices (existingRoomStates previousRooms)
      (apiDevices.filter isRelevant) cs [] with
  | mk cs1 res =>
    cases res with
    | error e => simp [hg] at h
    | ok grouped =>
      simp [hg] at h
      exact ⟨grouped, by rw [h.1], h.2⟩

theorem reconcile_openFrom {previousRooms : List Room} {apiDevices : List ApiDevice}
    {cs cs2 : ColorState} {out : List Room}
    (h : reconcile previousRooms apiDevices cs = (cs2, .ok out)) :
    OpenFrom (existingRoomStates previousRooms) out := by
  obtain ⟨grouped, hg, hs⟩ := reconcile_ok h
  refine openFrom_of_map_header (sortRooms_map_header hs) ?_
  exact groupDevices_openFrom _ _ _ _ _ _ (fun r hr => by simp at hr) hg

/-! ## C1: the open state is carried forward -/

theorem reconcile_sample :
    reconcile samplePrevious sampleSnapshot sampleColors = (sampleColorsAfter, .ok sampleRooms) := by
  rfl

/-- C1: in a successful reconciliation every resulting room has the `isOpen` of the
previous room with the same id (the last such room, should the previous list repeat
an id), and `isOpen = true` when no previous room has that id. -/
theorem reconcile_isOpen_carried_forward (previousRooms : List Room)
    (apiDevices : List ApiDevice) (cs cs2 : ColorState) (out : List Room)
    (h : reconcile previousRooms apiDevices cs = (cs2, .ok out)) :
    ∀ r ∈ out,
      (∀ pre p post, previousRooms = pre ++ p :: post → p.id = r.id →
        (∀ q ∈ post, q.id ≠ r.id) → r.isOpen = p.isOpen) ∧
      ((∀ p ∈ previousRooms, p.id ≠ r.id) → r.isOpen = true) := by
  intro r hr
  have hopen := reconcile_openFrom h r hr
  constructor
  · intro pre p post hP hid hpost
    rw [hopen, hP, ← hid]
    exact openState_existing_last pre post p (by rw [hid]; exact hpost)
  · intro hnone
    rw [hopen]
    exact openState_existing_none previousRooms r.id hnone

/-- C1 at the sample snapshot: the collapsed living room stays collapsed and the new
bedroom starts open. -/
theorem reconcile_isOpen_carried_forward_witness :
    reconcile samplePrevious sampleSnapshot sampleColors = (sampleColorsAfter, .ok sampleRooms) ∧
    sampleRooms.map (fun r => (r.id, r.isOpen)) = [("r1", false), ("r2", true)] ∧
    ∀ r ∈ sampleRooms,
      (∀ pre p post, samplePrevious = pre ++ p :: post → p.id = r.id →
        (∀ q ∈ post, q.id ≠ r.id) → r.isOpen = p.isOpen) ∧
      ((∀ p ∈ samplePrevious, p.id ≠ r.id) → r.isOpen = true) :=
  ⟨by rfl, by decide,
    reconcile_isOpen_carried_forward samplePrevious sampleSnapshot sampleColors
      sampleColorsAfter sampleRooms (by rfl)⟩

/-! ## The colour globals only grow -/

theorem ColorState.Extends.refl (cs : ColorState) : cs.Extends cs :=
  fun _ _ h => h

theorem ColorState.Extends.trans {a b c : ColorState} (hab : a.Extends b) (hbc : b.Extends c) :
    a.Extends c :=
  fun n v h => hbc n v (hab n v h)

theorem readColor_eq_none {m : List (String × Theme)} {n : String}
    (h : readColor m n = none) : m.lookup n = none ∧ n ∉ objectPrototypeKeys := by
  unfold readColor at h
  cases hl : m.lookup n with
  | some t => simp [hl] at h
  | none =>
    simp only [hl] at h
    by_cases hk : n ∈ objectPrototypeKeys
    · simp [hk] at h
    · exact ⟨rfl, hk⟩

theorem mapColor_of_read {cs : ColorState} {n : String} {v : ColorValue}
    (h : readColor cs.roomColorMap n = some v) : mapColor n cs = (v, cs) := by
  unfold mapColor
  rw [h]

theorem readColor_mapColor (n : String) (cs : ColorState) :
    readColor (mapColor n cs).2.roomColorMap n = some (mapColor n cs).1 := by
  cases h : readColor cs.roomColorMap n with
  | some v =>
    rw [mapColor_of_read h]
    exact h
  | none =>
    obtain ⟨hl, hk⟩ := readColor_eq_none h
    unfold mapColor
    simp only [h]
    unfold readColor
    simp [List.lookup_append, hl, List.lookup]

theorem mapColor_extends (n : String) (cs : ColorState) : cs.Extends (mapColor n cs).2 := by
  cases h : readColor cs.roomColorMap n with
  | some v =>
    rw [mapColor_of_read h]
    exact ColorState.Extends.refl cs
  | none =>
    obtain ⟨hl, hk⟩ := readColor_eq_none h
    intro k v hv
    unfold mapColor
    simp only [h]
    unfold readColor at hv ⊢
    cases hlk : cs.roomColorMap.lookup k with
    | some t =>
      simp only [hlk] at hv
      simp [List.lookup_append, hlk, hv]
    | none =>
      simp only [hlk] at hv
      by_cases hkk : k ∈ objectPrototypeKeys
      · have hne : k ≠ n := fun e => hk (e ▸ hkk)
        have hb : (k == n) = false := by simpa using hne
        simp only [hkk, if_true] at hv
        simp [List.lookup_append, hlk, List.lookup, hb, hkk, hv]
      · simp [hkk] at hv

theorem ensureRoom_extends (states : List (String × Bool)) (roomObj : ApiRoom)
    (cs : ColorState) (rooms : List Room) :
    cs.Extends (ensureRoom states roomObj cs rooms).1 := by
  unfold ensureRoom
  by_cases hh : hasRoom rooms roomObj.id = true
  · simp only [hh, if_true]
    exact ColorState.Extends.refl cs
  · simp only [hh]
    exact mapColor_extends roomObj.name cs

theorem groupDevices_extends (states : List (String × Bool)) (ds : List ApiDevice) :
    ∀ (cs : ColorState) (rooms : List Room),
      cs.Extends (groupDevices states ds cs rooms).1 := by
  induction ds with
  | nil =>
    intro cs rooms
    exact ColorState.Extends.refl cs
  | cons d rest ih =>
    intro cs rooms
    unfold groupDevices
    cases hroom : d.room with
    | none => exact ih cs rooms
    | some roomObj =>
      simp only
      cases ht : transformDeviceData d with
      | error e => exact ensureRoom_extends states roomObj cs rooms
      | ok t =>
        exact ColorState.Extends.trans (ensureRoom_extends states roomObj cs rooms) (ih _ _)

/-! ## The ids of the grouped rooms -/

theorem map_id_of_map_header {a b : List Room} (h : a.map Room.header = b.map Room.header) :
    a.map (fun r => r.id) = b.map (fun r => r.id) := by
  have h2 := congrArg (List.map Prod.fst) h
  simpa [List.map_map, Function.comp_def, Room.header] using h2

theorem hasRoom_iff_mem (rooms : List Room) (id : String) :
    hasRoom rooms id = true ↔ id ∈ rooms.map (fun r => r.id) := by
  simp [hasRoom]

theorem ensureRoom_map_id (states : List (String × Bool)) (roomObj : ApiRoom)
    (cs : ColorState) (rooms : List Room) :
    (ensureRoom states roomObj cs rooms).2.map (fun r => r.id) =
      if roomObj.id ∈ rooms.map (fun r => r.id) then rooms.map (fun r => r.id)
      else rooms.map (fun r => r.id) ++ [roomObj.id] := by
  unfold ensureRoom
  by_cases hh : hasRoom rooms roomObj.id = true
  · have hm := (hasRoom_iff_mem rooms roomObj.id).mp hh
    simp only [hh, if_true, hm]
  · have hm : roomObj.id ∉ rooms.map (fun r => r.id) :=
      fun hm => hh ((hasRoom_iff_mem rooms roomObj.id).mpr hm)
    simp only [hh, hm, if_false, List.map_append, List.map_cons, List.map_nil]
    simp

theorem groupDevices_map_id (states : List (String × Bool)) (ds : List ApiDevice) :
    ∀ (cs : ColorState) (rooms : List Room) (cs2 : ColorState) (out : List Room),
      groupDevices states ds cs rooms = (cs2, .ok out) →
      out.map (fun r => r.id) = roomIdsAfter ds (rooms.map (fun r => r.id)) := by
  induction ds with
  | nil =>
    intro cs rooms cs2 out hg
    simp [groupDevices] at hg
    rw [← hg.2]
    rfl
  | cons d rest ih =>
    intro cs rooms cs2 out hg
    unfold groupDevices at hg
    unfold roomIdsAfter
    cases hroom : d.room with
    | none =>
      simp only [hroom] at hg
      exact ih cs rooms cs2 out hg
    | some roomObj =>
      simp only [hroom] at hg
      cases ht : transformDeviceData d with
      | error e => simp [ht] at hg
      | ok t =>
        simp only [ht] at hg
        rw [ih _ _ cs2 out hg, map_id_of_map_header (pushDevice_map_header _ _ _ _),
          ensureRoom_map_id]

theorem roomIdsAfter_nodup (ds : List ApiDevice) :
    ∀ ids : List String, ids.Nodup → (roomIdsAfter ds ids).Nodup := by
  induction ds with
  | nil => intro ids h; exact h
  | cons d rest ih =>
    intro ids h
    unfold roomIdsAfter
    cases hroom : d.room with
    | none => exact ih ids h
    | some roomObj =>
      simp only
      apply ih
      by_cases hm : roomObj.id ∈ ids
      · simpa [hm] using h
      · simp only [hm, if_false]
        rw [List.nodup_append]
        refine ⟨h, List.nodup_singleton _, ?_⟩
        intro a ha hb
        simp at hb
        exact hm (hb ▸ ha)

theorem roomIdsAfter_mono (ds : List ApiDevice) :
    ∀ (ids : List String) (id : String), id ∈ ids → id ∈ roomIdsAfter ds ids := by
  induction ds with
  | nil => intro ids id h; exact h
  | cons d rest ih =>
    intro ids id h
    unfold roomIdsAfter
    cases hroom : d.room with
    | none => exact ih ids id h
    | some roomObj =>
      simp only
      apply ih
      by_cases hm : roomObj.id ∈ ids
      · simpa [hm] using h
      · simp [hm, h]

theorem roomIdsAfter_covers (ds : List ApiDevice) :
    ∀ (ids : List String) (d : ApiDevice) (roomObj : ApiRoom), d ∈ ds →
      d.room = some roomObj → roomObj.id ∈ roomIdsAfter ds ids := by
  induction ds with
  | nil => intro ids d roomObj h; simp at h
  | cons d0 rest ih =>
    intro ids d roomObj hd hroom
    unfold roomIdsAfter
    rcases List.mem_cons.mp hd with hd | hd
    · subst hd
      simp only [hroom]
      apply roomIdsAfter_mono
      by_cases hm : roomObj.id ∈ ids
      · simp [hm]
      · simp [hm]
    · cases hroom0 : d0.room with
      | none => exact ih ids d roomObj hd hroom
      | some r0 => exact ih _ d roomObj hd hroom

/-! ## A second run over the same snapshot -/

theorem ensureRoom_rerun {states states2 : List (String × Bool)} {roomObj : ApiRoom}
    {cs csf : ColorState} {rooms : List Room}
    (hext : (ensureRoom states roomObj cs rooms).1.Extends csf)
    (hopen : openState states2 roomObj.id = openState states roomObj.id) :
    ensureRoom states2 roomObj csf rooms = (csf, (ensureRoom states roomObj cs rooms).2) := by
  unfold ensureRoom at hext ⊢
  by_cases hh : hasRoom rooms roomObj.id = true
  · simp only [hh, if_true]
  · simp only [hh] at hext ⊢
    simp only [Bool.false_eq_true, if_false] at hext ⊢
    have hread := hext _ _ (readColor_mapColor roomObj.name cs)
    rw [mapColor_of_read hread, hopen]

theorem groupDevices_rerun (states states2 : List (String × Bool)) (ds : List ApiDevice) :
    ∀ (cs : ColorState) (rooms : List Room) (cs2 : ColorState) (out : List Room),
      groupDevices states ds cs rooms = (cs2, .ok out) →
      ∀ csf : ColorState, cs2.Extends csf →
      (∀ d ∈ ds, ∀ roomObj, d.room = some roomObj →
        openState states2 roomObj.id = openState states roomObj.id) →
      groupDevices states2 ds csf rooms = (csf, .ok out) := by
  induction ds with
  | nil =>
    intro cs rooms cs2 out hg csf _ _
    simp [groupDevices] at hg ⊢
    exact hg.2
  | cons d rest ih =>
    intro cs rooms cs2 out hg csf hext hopen
    unfold groupDevices at hg ⊢
    have hrest : ∀ x ∈ rest, ∀ roomObj, x.room = some roomObj →
        openState states2 roomObj.id = openState states roomObj.id :=
      fun x hx => hopen x (List.mem_cons_of_mem _ hx)
    cases hroom : d.room with
    | none =>
      simp only [hroom] at hg ⊢
      exact ih cs rooms cs2 out hg csf hext hrest
    | some roomObj =>
      simp only [hroom] at hg ⊢
      cases ht : transformDeviceData d with
      | error e => simp [ht] at hg
      | ok t =>
        simp only [ht] at hg ⊢
        have hstate : (ensureRoom states roomObj cs rooms).1.Extends cs2 := by
          have := groupDevices_extends states rest (ensureRoom states roomObj cs rooms).1
            (pushDevice roomObj.id d.type t (ensureRoom states roomObj cs rooms).2)
          rw [hg] at this
          exact this
        have hcreate := ensureRoom_rerun
          (ColorState.Extends.trans hstate hext)
          (hopen d (List.mem_cons_self _ _) roomObj hroom)
        rw [hcreate]
        exact ih _ _ cs2 out hg csf hext hrest

theorem openState_existing_of_mem {rooms : List Room}
    (hnodup : (rooms.map (fun r => r.id)).Nodup) {r : Room} (hr : r ∈ rooms) :
    openState (existingRoomStates rooms) r.id = r.isOpen := by
  obtain ⟨pre, post, hsplit⟩ := List.append_of_mem hr
  subst hsplit
  apply openState_existing_last
  intro q hq heq
  simp only [List.map_append, List.map_cons] at hnodup
  have h2 := (List.nodup_append.mp hnodup).2.1
  have h3 := (List.nodup_cons.mp h2).1
  exact h3 (heq ▸ List.mem_map_of_mem (fun r => r.id) hq)

/-! ## C2: reconciliation is idempotent -/

theorem reconcile_map_id {previousRooms : List Room} {apiDevices : List ApiDevice}
    {cs cs2 : ColorState} {out : List Room}
    (h : reconcile previousRooms apiDevices cs = (cs2, .ok out)) :
    out.map (fun r => r.id) = roomIdsAfter (apiDevices.filter isRelevant) [] := by
  obtain ⟨grouped, hg, hs⟩ := reconcile_ok h
  rw [map_id_of_map_header (sortRooms_map_header hs),
    groupDevices_map_id _ _ _ _ _ _ hg]
  rfl

/-- C2: reconciling a snapshot again, with the result of a successful first
reconciliation as the previous rooms (and the colour globals the first run left),
gives the very same room list and leaves the colour globals as they are. -/
theorem reconcile_idempotent (previousRooms : List Room) (apiDevices : List ApiDevice)
    (cs cs2 : ColorState) (out : List Room)
    (h : reconcile previousRooms apiDevices cs = (cs2, .ok out)) :
    reconcile out apiDevices cs2 = (cs2, .ok out) := by
  obtain ⟨grouped, hg, hs⟩ := reconcile_ok h
  have hids := reconcile_map_id h
  have hnodup : (out.map (fun r => r.id)).Nodup := by
    rw [hids]
    exact roomIdsAfter_nodup _ _ List.nodup_nil
  have hopen : ∀ d ∈ apiDevices.filter isRelevant, ∀ roomObj, d.room = some roomObj →
      openState (existingRoomStates out) roomObj.id =
        openState (existingRoomStates previousRooms) roomObj.id := by
    intro d hd roomObj hroom
    have hmem : roomObj.id ∈ out.map (fun r => r.id) := by
      rw [hids]
      exact roomIdsAfter_covers _ _ d roomObj hd hroom
    obtain ⟨r, hr, hrid⟩ := List.mem_map.mp hmem
    rw [← hrid, openState_existing_of_mem hnodup hr]
    exact reconcile_openFrom h r hr
  have hrerun := groupDevices_rerun (existingRoomStates previousRooms)
    (existingRoomStates out) _ _ _ _ _ hg cs2 (ColorState.Extends.refl cs2) hopen
  unfold reconcile
  simp only [hrerun, hs]

/-- C2 at the sample snapshot: a second reconciliation returns the same rooms. -/
theorem reconcile_idempotent_witness :
    reconcile samplePrevious sampleSnapshot sampleColors = (sampleColorsAfter, .ok sampleRooms) ∧
    reconcile sampleRooms sampleSnapshot sampleColorsAfter =
      (sampleColorsAfter, .ok sampleRooms) :=
  ⟨reconcile_sample,
    reconcile_idempotent samplePrevious sampleSnapshot sampleColors sampleColorsAfter
      sampleRooms reconcile_sample⟩

/-! ## The device lists of the grouped rooms -/

theorem hasRoom_ensureRoom (states : List (String × Bool)) (roomObj : ApiRoom)
    (cs : ColorState) (rooms : List Room) :
    hasRoom (ensureRoom states roomObj cs rooms).2 roomObj.id = true := by
  rw [hasRoom_iff_mem, ensureRoom_map_id]
  by_cases hm : roomObj.id ∈ rooms.map (fun r => r.id)
  · simp only [hm, if_true]
  · simp [hm]

theorem devicesOf_ensureRoom (states : List (String × Bool)) (roomObj : ApiRoom)
    (cs : ColorState) (rooms : List Room) (id : String) :
    devicesOf (ensureRoom states roomObj cs rooms).2 id = devicesOf rooms id ∧
    controllersOf (ensureRoom states roomObj cs rooms).2 id = controllersOf rooms id := by
  unfold ensureRoom
  by_cases hh : hasRoom rooms roomObj.id = true
  · simp only [hh, if_true, and_self]
  · simp only [hh, Bool.false_eq_true, if_false]
    unfold devicesOf controllersOf
    rw [List.find?_append]
    cases hf : rooms.find? (fun r => r.id == id) with
    | some r => simp
    | none =>
      by_cases hid : roomObj.id = id
      · simp [List.find?, hid]
      · have hb : (roomObj.id == id) = false := by simpa using hid
        simp [List.find?, hb]

theorem devicesOf_pushDevice (roomId type : String) (t : Device) (id : String) :
    ∀ rooms : List Room, hasRoom rooms roomId = true →
      devicesOf (pushDevice roomId type t rooms) id =
        devicesOf rooms id ++
          (if roomId = id ∧ (type = "light" ∨ type = "blinds") then [t] else []) ∧
      controllersOf (pushDevice roomId type t rooms) id =
        controllersOf rooms id ++
          (if roomId = id ∧ ¬(type = "light" ∨ type = "blinds") ∧ type = "controller"
            then [t] else []) := by
  intro rooms
  induction rooms with
  | nil => intro h; simp [hasRoom] at h
  | cons r rs ih =>
    intro h
    unfold pushDevice
    by_cases hr : r.id = roomId
    · simp only [hr, if_true]
      unfold devicesOf controllersOf
      have hid0 : (addToRoom type t r).id = roomId := by
        have := addToRoom_header type t r
        simp only [Room.header, Prod.mk.injEq] at this
        rw [this.1, hr]
      by_cases hid : roomId = id
      · have hb : ((addToRoom type t r).id == id) = true := by simp [hid0, hid]
        have hb2 : (r.id == id) = true := by simp [hr, hid]
        simp only [List.find?, hb, hb2, hid, true_and]
        unfold addToRoom
        by_cases hlb : type = "light" ∨ type = "blinds"
        · simp [hlb]
        · by_cases hc : type = "controller"
          · simp [hlb, hc]
          · simp [hlb, hc]
      · have hb : ((addToRoom type t r).id == id) = false := by simp [hid0, hid]
        have hb2 : (r.id == id) = false := by simp [hr, hid]
        simp [List.find?, hb, hb2, hid]
    · simp only [hr, if_false]
      have hrest : hasRoom rs roomId = true := by
        simp only [hasRoom, List.any_cons, Bool.or_eq_true, beq_iff_eq] at h
        rcases h with h | h
        · exact absurd h hr
        · exact h
      have := ih hrest
      unfold devicesOf controllersOf at this ⊢
      by_cases hid : r.id = id
      · have hb : (r.id == id) = true := by simp [hid]
        have hne : ¬ roomId = id := fun e => hr (hid.trans e.symm)
        simp [List.find?, hb, hne]
      · have hb : (r.id == id) = false := by simp [hid]
        simp only [List.find?, hb]
        exact this

theorem groupDevices_lists (states : List (String × Bool)) (ds : List ApiDevice) :
    ∀ (cs : ColorState) (rooms : List Room) (cs2 : ColorState) (out : List Room),
      groupDevices states ds cs rooms = (cs2, .ok out) →
      ∀ id : String, ∃ ts tc : List Device,
        List.Forall₂ Shows (ds.filter (fun d => belongsTo id d && isLightOrBlinds d)) ts ∧
        List.Forall₂ Shows (ds.filter (fun d => belongsTo id d && isController d)) tc ∧
        devicesOf out id = devicesOf rooms id ++ ts ∧
        controllersOf out id = controllersOf rooms id ++ tc := by
  induction ds with
  | nil =>
    intro cs rooms cs2 out hg id
    simp [groupDevices] at hg
    refine ⟨[], [], ?_, ?_, ?_, ?_⟩ <;> simp [hg.2]
  | cons d rest ih =>
    intro cs rooms cs2 out hg id
    unfold groupDevices at hg
    cases hroom : d.room with
    | none =>
      simp only [hroom] at hg
      obtain ⟨ts, tc, h1, h2, h3, h4⟩ := ih cs rooms cs2 out hg id
      have hb : belongsTo id d = false := by simp [belongsTo, hroom]
      refine ⟨ts, tc, ?_, ?_, h3, h4⟩
      · simpa [List.filter_cons, hb] using h1
      · simpa [List.filter_cons, hb] using h2
    | some roomObj =>
      simp only [hroom] at hg
      cases ht : transformDeviceData d with
      | error e => simp [ht] at hg
      | ok t =>
        simp only [ht] at hg
        obtain ⟨ts, tc, h1, h2, h3, h4⟩ := ih _ _ cs2 out hg id
        have hpush := devicesOf_pushDevice roomObj.id d.type t id
          (ensureRoom states roomObj cs rooms).2 (hasRoom_ensureRoom states roomObj cs rooms)
        have hens := devicesOf_ensureRoom states roomObj cs rooms id
        rw [hpush.1, hens.1] at h3
        rw [hpush.2, hens.2] at h4
        have hshow : Shows d t := ht
        by_cases hid : roomObj.id = id
        · have hb : belongsTo id d = true := by simp [belongsTo, hroom, hid]
          by_cases hlb : d.type = "light" ∨ d.type = "blinds"
          · have hl : isLightOrBlinds d = true := by
              simpa [isLightOrBlinds] using hlb
            have hc : isController d = false := by
              rcases hlb with e | e <;> simp [isController, e]
            have hcne : ¬ d.type = "controller" := by
              rcases hlb with e | e <;> simp [e]
            refine ⟨t :: ts, tc, ?_, ?_, ?_, ?_⟩
            · simpa [List.filter_cons, hb, hl] using List.Forall₂.cons hshow h1
            · simpa [List.filter_cons, hb, hc] using h2
            · simpa [hid, hlb] using h3
            · simpa [hid, hlb] using h4
          · have hl : isLightOrBlinds d = false := by
              simpa [isLightOrBlinds] using hlb
            by_cases hc : d.type = "controller"
            · have hcc : isController d = true := by simp [isController, hc]
              refine ⟨ts, t :: tc, ?_, ?_, ?_, ?_⟩
              · simpa [List.filter_cons, hb, hl] using h1
              · simpa [List.filter_cons, hb, hcc] using List.Forall₂.cons hshow h2
              · simpa [hid, hlb] using h3
              · simpa [hid, hlb, hc] using h4
            · have hcc : isController d = false := by simp [isController, hc]
              refine ⟨ts, tc, ?_, ?_, ?_, ?_⟩
              · simpa [List.filter_cons, hb, hl] using h1
              · simpa [List.filter_cons, hb, hcc] using h2
              · simpa [hid, hlb] using h3
              · simpa [hid, hlb, hc] using h4
        · have hb : belongsTo id d = false := by simp [belongsTo, hroom, hid]
          refine ⟨ts, tc, ?_, ?_, ?_, ?_⟩
          · simpa [List.filter_cons, hb] using h1
          · simpa [List.filter_cons, hb] using h2
          · simpa [hid] using h3
          · simpa [hid] using h4

/-! ## The sort rearranges -/

theorem orderedInsert_perm {α ε : Type} (cmp : α → α → Except ε Int) (a : α) :
    ∀ (l s : List α), orderedInsert cmp a l = .ok s → s.Perm (a :: l) := by
  intro l
  induction l with
  | nil =>
    intro s h
    simp [orderedInsert] at h
    subst h
    exact List.Perm.refl _
  | cons b l ih =>
    intro s h
    unfold orderedInsert at h
    cases hc : cmp a b with
    | error e => simp [hc, bind, Except.bind] at h
    | ok c =>
      simp only [hc, bind, Except.bind] at h
      by_cases hle : c ≤ 0
      · simp [hle, pure, Except.pure] at h
        subst h
        exact List.Perm.refl _
      · simp only [hle, if_false] at h
        cases hr : orderedInsert cmp a l with
        | error e => simp [hr] at h
        | ok r =>
          simp [hr, pure, Except.pure] at h
          subst h
          exact ((ih r hr).cons b).trans (List.Perm.swap a b l)

theorem sortWith_perm {α ε : Type} (cmp : α → α → Except ε Int) :
    ∀ (l s : List α), sortWith cmp l = .ok s → s.Perm l := by
  intro l
  induction l with
  | nil =>
    intro s h
    simp [sortWith] at h
    subst h
    exact List.Perm.refl _
  | cons a l ih =>
    intro s h
    unfold sortWith at h
    cases hs : sortWith cmp l with
    | error e => simp [hs, bind, Except.bind] at h
    | ok s0 =>
      simp only [hs, bind, Except.bind] at h
      exact (orderedInsert_perm cmp a s0 s h).trans ((ih s0 hs).cons a)

/-! ## C3: the rooms hold exactly the relevant devices -/

theorem sortRoom_lists {room sorted : Room} (h : sortRoom room = .ok sorted) :
    sorted.id = room.id ∧ sorted.devices.Perm room.devices ∧
      sorted.controllers.Perm room.controllers := by
  unfold sortRoom at h
  cases hd : sortWith deviceSorter room.devices with
  | error e => simp [hd, bind, Except.bind] at h
  | ok ds =>
    cases hc : sortWith deviceSorter room.controllers with
    | error e => simp [hd, hc, bind, Except.bind] at h
    | ok cs =>
      simp [hd, hc, bind, Except.bind, pure, Except.pure] at h
      subst h
      exact ⟨rfl, sortWith_perm _ _ _ hd, sortWith_perm _ _ _ hc⟩

theorem sortRooms_mem {rooms sorted : List Room} (h : sortRooms rooms = .ok sorted) :
    ∀ r ∈ sorted, ∃ m ∈ rooms, sortRoom m = .ok r := by
  induction rooms generalizing sorted with
  | nil =>
    simp [sortRooms] at h
    subst h
    intro r hr
    simp at hr
  | cons m ms ih =>
    unfold sortRooms at h
    cases hr : sortRoom m with
    | error e => simp [hr, bind, Except.bind] at h
    | ok r1 =>
      cases hs : sortRooms ms with
      | error e => simp [hr, hs, bind, Except.bind] at h
      | ok rs1 =>
        simp [hr, hs, bind, Except.bind, pure, Except.pure] at h
        subst h
        intro r hmem
        rcases List.mem_cons.mp hmem with e | hmem
        · subst e
          exact ⟨m, List.mem_cons_self _ _, hr⟩
        · obtain ⟨m2, hm2, hs2⟩ := ih hs r hmem
          exact ⟨m2, List.mem_cons_of_mem _ hm2, hs2⟩

theorem find_of_nodup {rooms : List Room} (hnodup : (rooms.map (fun r => r.id)).Nodup)
    {m : Room} (hm : m ∈ rooms) : rooms.find? (fun r => r.id == m.id) = some m := by
  induction rooms with
  | nil => simp at hm
  | cons r rs ih =>
    simp only [List.map_cons, List.nodup_cons] at hnodup
    rcases List.mem_cons.mp hm with e | hmem
    · subst e
      simp [List.find?]
    · have hne : r.id ≠ m.id := by
        intro e
        exact hnodup.1 (e ▸ List.mem_map_of_mem (fun r => r.id) hmem)
      have hb : (r.id == m.id) = false := by simpa using hne
      simp only [List.find?, hb]
      exact ih hnodup.2 hmem

/-- C3: after a successful reconciliation the rooms have distinct ids, every relevant
device of the snapshot (type light, blinds or controller, with a room reference)
has a room with its room id, and each room holds, up to order, exactly the display
models of the relevant lights and blinds with that room id in `devices` and exactly
those of the relevant controllers with that room id in `controllers`. -/
theorem reconcile_rooms_hold_relevant_devices (previousRooms : List Room)
    (apiDevices : List ApiDevice) (cs cs2 : ColorState) (out : List Room)
    (h : reconcile previousRooms apiDevices cs = (cs2, .ok out)) :
    (out.map (fun r => r.id)).Nodup ∧
    (∀ d ∈ apiDevices, isRelevant d = true → ∃ r ∈ out, belongsTo r.id d = true) ∧
    ∀ r ∈ out, ∃ ts tc : List Device,
      List.Forall₂ Shows
        (apiDevices.filter (fun d => isRelevant d && (belongsTo r.id d && isLightOrBlinds d)))
        ts ∧
      r.devices.Perm ts ∧
      List.Forall₂ Shows
        (apiDevices.filter (fun d => isRelevant d && (belongsTo r.id d && isController d)))
        tc ∧
      r.controllers.Perm tc := by
  obtain ⟨grouped, hg, hs⟩ := reconcile_ok h
  have hids := reconcile_map_id h
  have hnodup : (out.map (fun r => r.id)).Nodup := by
    rw [hids]
    exact roomIdsAfter_nodup _ _ List.nodup_nil
  have hgnodup : (grouped.map (fun r => r.id)).Nodup := by
    rw [← map_id_of_map_header (sortRooms_map_header hs)]
    exact hnodup
  refine ⟨hnodup, ?_, ?_⟩
  · intro d hd hrel
    have hsome : d.room.isSome = true := by
      simp only [isRelevant, Bool.and_eq_true] at hrel
      exact hrel.2
    obtain ⟨roomObj, hroom⟩ := Option.isSome_iff_exists.mp hsome
    have hmem : roomObj.id ∈ out.map (fun r => r.id) := by
      rw [hids]
      exact roomIdsAfter_covers _ _ d roomObj
        (List.mem_filter.mpr ⟨hd, hrel⟩) hroom
    obtain ⟨r, hr, hrid⟩ := List.mem_map.mp hmem
    exact ⟨r, hr, by simp [belongsTo, hroom, hrid]⟩
  · intro r hr
    obtain ⟨m, hm, hsort⟩ := sortRooms_mem hs r hr
    obtain ⟨hid, hdev, hctl⟩ := sortRoom_lists hsort
    obtain ⟨ts, tc, h1, h2, h3, h4⟩ := groupDevices_lists _ _ _ _ _ _ hg m.id
    have hfind := find_of_nodup hgnodup hm
    simp only [devicesOf, controllersOf, hfind, List.find?_nil, List.nil_append] at h3 h4
    rw [List.filter_filter] at h1 h2
    have e1 : (fun a => belongsTo m.id a && isLightOrBlinds a && isRelevant a) =
        (fun d => isRelevant d && (belongsTo m.id d && isLightOrBlinds d)) := by
      funext a
      exact Bool.and_comm _ _
    have e2 : (fun a => belongsTo m.id a && isController a && isRelevant a) =
        (fun d => isRelevant d && (belongsTo m.id d && isController d)) := by
      funext a
      exact Bool.and_comm _ _
    rw [e1] at h1
    rw [e2] at h2
    refine ⟨ts, tc, ?_, ?_, ?_, ?_⟩
    · rw [hid]
      exact h1
    · rw [← h3]
      exact hdev
    · rw [hid]
      exact h2
    · rw [← h4]
      exact hctl

/-- C3 at the sample snapshot: the gateway, the roomless light and the sensor are in
no room, and the five relevant devices are spread over the two rooms. -/
theorem reconcile_rooms_hold_relevant_devices_witness :
    reconcile samplePrevious sampleSnapshot sampleColors = (sampleColorsAfter, .ok sampleRooms) ∧
    sampleRooms.map (fun r => (r.devices.map (fun t => t.id), r.controllers.map (fun t => t.id)))
      = [(["d3", "d1"], ["d4"]), (["d5", "d2"], [])] ∧
    ((sampleRooms.map (fun r => r.id)).Nodup ∧
    (∀ d ∈ sampleSnapshot, isRelevant d = true → ∃ r ∈ sampleRooms, belongsTo r.id d = true) ∧
    ∀ r ∈ sampleRooms, ∃ ts tc : List Device,
      List.Forall₂ Shows
        (sampleSnapshot.filter
          (fun d => isRelevant d && (belongsTo r.id d && isLightOrBlinds d))) ts ∧
      r.devices.Perm ts ∧
      List.Forall₂ Shows
        (sampleSnapshot.filter
          (fun d => isRelevant d && (belongsTo r.id d && isController d))) tc ∧
      r.controllers.Perm tc) :=
  ⟨reconcile_sample, by decide,
    reconcile_rooms_hold_relevant_devices samplePrevious sampleSnapshot sampleColors
      sampleColorsAfter sampleRooms reconcile_sample⟩

/-! ## The comparator is total -/

theorem compareToken_swap (a b : Token) : compareToken b a = -compareToken a b := by
  cases a <;> cases b <;> simp only [compareToken] <;> split_ifs <;> first | rfl | omega

theorem compareTokens_swap : ∀ a b : List Token, compareTokens b a = -compareTokens a b
  | [], [] => rfl
  | [], _ :: _ => rfl
  | _ :: _, [] => rfl
  | x :: xs, y :: ys => by
    simp only [compareTokens]
    rw [compareToken_swap x y, compareTokens_swap xs ys]
    by_cases h : compareToken x y = 0
    · simp [h]
    · simp [h]

theorem localeCompare_swap (a b : String) : localeCompare b a = -localeCompare a b :=
  compareTokens_swap _ _

theorem compareNames_total (x y : String) (h : ¬ compareNames x y ≤ 0) :
    compareNames y x ≤ 0 := by
  unfold compareNames at h ⊢
  simp only at h ⊢
  by_cases h1 : (includes x "left" && includes y "right") = true
  · simp [h1] at h
  · by_cases h2 : (includes x "right" && includes y "left") = true
    · have h2' : (includes y "left" && includes x "right") = true := by
        rw [Bool.and_comm]; exact h2
      simp [h2']
    · have h1' : ¬ (includes y "right" && includes x "left") = true := by
        rw [Bool.and_comm]; exact h1
      have h2' : ¬ (includes y "left" && includes x "right") = true := by
        rw [Bool.and_comm]; exact h2
      simp only [h1, h2, h1', h2', if_false] at h ⊢
      rw [localeCompare_swap x y]
      simp only [Bool.false_eq_true, if_false] at h ⊢
      omega

theorem deviceSorter_ok {a b : Device} {c : Int} (h : deviceSorter a b = .ok c) :
    ∃ sa sb, a.name = JsName.str sa ∧ b.name = JsName.str sb ∧
      c = compareNames (toLowerCase sa) (toLowerCase sb) := by
  unfold deviceSorter at h
  cases ha : a.name with
  | num n => simp [ha, lowerName, bind, Except.bind] at h
  | str sa =>
    cases hb : b.name with
    | num n => simp [ha, hb, lowerName, bind, Except.bind] at h
    | str sb =>
      simp [ha, hb, lowerName, bind, Except.bind, pure, Except.pure] at h
      exact ⟨sa, sb, rfl, rfl, h.symm⟩

theorem deviceSorter_str {a b : Device} {sa sb : String} (ha : a.name = JsName.str sa)
    (hb : b.name = JsName.str sb) :
    deviceSorter a b = .ok (compareNames (toLowerCase sa) (toLowerCase sb)) := by
  unfold deviceSorter
  simp [ha, hb, lowerName, bind, Except.bind, pure, Except.pure]

theorem deviceSorter_total (a b : Device) (c : Int) (h : deviceSorter a b = .ok c)
    (hc : ¬ c ≤ 0) : comesBefore deviceSorter b a = true := by
  obtain ⟨sa, sb, ha, hb, hval⟩ := deviceSorter_ok h
  unfold comesBefore
  rw [deviceSorter_str hb ha]
  simp only [decide_eq_true_eq]
  exact compareNames_total _ _ (hval ▸ hc)

/-! ## The sort orders a consistently compared list -/

theorem orderedInsert_pairwise {α ε : Type} (cmp : α → α → Except ε Int) (a : α)
    (htotal : ∀ y c, cmp a y = .ok c → ¬ c ≤ 0 → comesBefore cmp y a = true) :
    ∀ (l s : List α), orderedInsert cmp a l = .ok s →
      l.Pairwise (fun x y => comesBefore cmp x y = true) →
      (∀ y ∈ l, ∀ z ∈ l, comesBefore cmp a y = true → comesBefore cmp y z = true →
        comesBefore cmp a z = true) →
      s.Pairwise (fun x y => comesBefore cmp x y = true) := by
  intro l
  induction l with
  | nil =>
    intro s h _ _
    simp [orderedInsert] at h
    subst h
    simp
  | cons b l ih =>
    intro s h hsorted htrans
    unfold orderedInsert at h
    cases hc : cmp a b with
    | error e => simp [hc, bind, Except.bind] at h
    | ok c =>
      simp only [hc, bind, Except.bind] at h
      have hsorted' := List.pairwise_cons.mp hsorted
      by_cases hle : c ≤ 0
      · simp [hle, pure, Except.pure] at h
        subst h
        have hab : comesBefore cmp a b = true := by
          simp [comesBefore, hc, hle]
        refine List.pairwise_cons.mpr ⟨?_, hsorted⟩
        intro x hx
        rcases List.mem_cons.mp hx with e | hx
        · rw [e]; exact hab
        · exact htrans b (List.mem_cons_self _ _) x (List.mem_cons_of_mem _ hx) hab
            (hsorted'.1 x hx)
      · simp only [hle, if_false] at h
        cases hr : orderedInsert cmp a l with
        | error e => simp [hr] at h
        | ok r =>
          simp [hr, pure, Except.pure] at h
          subst h
          have hrs := ih r hr hsorted'.2
            (fun y hy z hz => htrans y (List.mem_cons_of_mem _ hy) z (List.mem_cons_of_mem _ hz))
          refine List.pairwise_cons.mpr ⟨?_, hrs⟩
          intro x hx
          have hx' := (orderedInsert_perm cmp a l r hr).mem_iff.mp hx
          rcases List.mem_cons.mp hx' with e | hx'
          · rw [e]; exact htotal b c hc hle
          · exact hsorted'.1 x hx'

theorem sortWith_pairwise {α ε : Type} (cmp : α → α → Except ε Int)
    (htotal : ∀ x y c, cmp x y = .ok c → ¬ c ≤ 0 → comesBefore cmp y x = true) :
    ∀ (l s : List α), sortWith cmp l = .ok s →
      (∀ x ∈ l, ∀ y ∈ l, ∀ z ∈ l, comesBefore cmp x y = true → comesBefore cmp y z = true →
        comesBefore cmp x z = true) →
      s.Pairwise (fun x y => comesBefore cmp x y = true) := by
  intro l
  induction l with
  | nil =>
    intro s h _
    simp [sortWith] at h
    subst h
    simp
  | cons a l ih =>
    intro s h htrans
    unfold sortWith at h
    cases hs : sortWith cmp l with
    | error e => simp [hs, bind, Except.bind] at h
    | ok s0 =>
      simp only [hs, bind, Except.bind] at h
      have hperm := sortWith_perm cmp l s0 hs
      have hs0 := ih s0 hs (fun x hx y hy z hz =>
        htrans x (List.mem_cons_of_mem _ hx) y (List.mem_cons_of_mem _ hy) z
          (List.mem_cons_of_mem _ hz))
      refine orderedInsert_pairwise cmp a (htotal a) s0 s h hs0 ?_
      intro y hy z hz
      exact htrans a (List.mem_cons_self _ _) y (List.mem_cons_of_mem _ (hperm.mem_iff.mp hy)) z
        (List.mem_cons_of_mem _ (hperm.mem_iff.mp hz))

/-! ## What sorting a room returns -/

theorem sortRoom_sorts {room sorted : Room} (h : sortRoom room = .ok sorted) :
    sortWith deviceSorter room.devices = .ok sorted.devices ∧
      sortWith deviceSorter room.controllers = .ok sorted.controllers := by
  unfold sortRoom at h
  cases hd : sortWith deviceSorter room.devices with
  | error e => simp [hd, bind, Except.bind] at h
  | ok ds =>
    cases hc : sortWith deviceSorter room.controllers with
    | error e => simp [hd, hc, bind, Except.bind] at h
    | ok cs =>
      simp [hd, hc, bind, Except.bind, pure, Except.pure] at h
      subst h
      exact ⟨rfl, rfl⟩

/-! ## C4: left before right -/

/-- C4 fails on the code, which by its own comment sorts `left` first: in the hallway
the comparator puts `Bright Lamp` before `Desk Lamp` and `Desk Lamp` before
`Left Lamp`, so the list given in that order stays as it is and `Left Lamp` ends
behind `Bright Lamp`, whose lowercased name contains `right`; with the whole words
`Door Right`, `Lamp`, `Window Left` the same happens and `Window Left` ends behind
`Door Right`. -/
theorem reconcile_left_behind_right :
    reconcile [] directionSnapshot ⟨[], 0⟩ =
      (⟨[("Hall", ⟨"#8DBCD4", "#1f2937"⟩), ("Study", ⟨"#9FB842", "#1f2937"⟩)], 2⟩,
        .ok directionRooms) ∧
    directionRooms.head?.map (fun r => r.devices) =
      some [ sampleShown "h1" "Bright Lamp" "light" true 50 (some "yellow") none,
             sampleShown "h2" "Desk Lamp" "light" true 50 (some "yellow") none,
             sampleShown "h3" "Left Lamp" "light" true 50 (some "yellow") none ] ∧
    ¬ LeftBeforeRight
      [ sampleShown "h1" "Bright Lamp" "light" true 50 (some "yellow") none,
        sampleShown "h2" "Desk Lamp" "light" true 50 (some "yellow") none,
        sampleShown "h3" "Left Lamp" "light" true 50 (some "yellow") none ] ∧
    (reconcile [] wordSnapshot ⟨[], 0⟩).2.map (fun rooms => rooms.map (fun r => r.devices)) =
      .ok [[ sampleShown "w1" "Door Right" "blinds" true 50 none (some 80),
             sampleShown "w2" "Lamp" "light" true 50 (some "yellow") none,
             sampleShown "w3" "Window Left" "blinds" true 50 none (some 80) ]] ∧
    ¬ LeftBeforeRight
      [ sampleShown "w1" "Door Right" "blinds" true 50 none (some 80),
        sampleShown "w2" "Lamp" "light" true 50 (some "yellow") none,
        sampleShown "w3" "Window Left" "blinds" true 50 none (some 80) ] := by
  refine ⟨by rfl, by rfl, ?_, by rfl, ?_⟩
  · intro hlr
    have := hlr 2 0 (sampleShown "h3" "Left Lamp" "light" true 50 (some "yellow") none)
      (sampleShown "h1" "Bright Lamp" "light" true 50 (some "yellow") none)
      (by rfl) (by rfl) (by decide) (by decide)
    exact absurd this (by decide)
  · intro hlr
    have := hlr 2 0 (sampleShown "w3" "Window Left" "blinds" true 50 none (some 80))
      (sampleShown "w1" "Door Right" "blinds" true 50 none (some 80))
      (by rfl) (by rfl) (by decide) (by decide)
    exact absurd this (by decide)

/-! ## Collation units of a name with an embedded number -/

theorem toLower_isDigit (c : Char) : c.toLower.isDigit = c.isDigit := by
  unfold Char.toLower
  simp only
  split
  · rename_i h
    have hc : c = Char.ofNat c.toNat := (Char.ofNat_toNat c).symm
    obtain ⟨h1, h2⟩ := h
    generalize c.toNat = n at hc h1 h2
    subst hc
    interval_cases n <;> rfl
  · rfl

theorem toLower_of_isDigit {c : Char} (h : c.isDigit = true) : c.toLower = c := by
  unfold Char.toLower
  simp only
  split
  · rename_i h2
    exfalso
    have hc : c = Char.ofNat c.toNat := (Char.ofNat_toNat c).symm
    obtain ⟨h1, h2⟩ := h2
    generalize c.toNat = n at hc h1 h2
    subst hc
    interval_cases n <;> exact absurd h (by decide)
  · rfl

theorem lowerChars_digits : ∀ ds : List Char, (∀ c ∈ ds, c.isDigit = true) →
    lowerChars ds = ds
  | [], _ => rfl
  | c :: cs, h => by
    have hc := toLower_of_isDigit (h c (List.mem_cons_self _ _))
    have hcs := lowerChars_digits cs (fun x hx => h x (List.mem_cons_of_mem _ hx))
    unfold lowerChars at hcs ⊢
    rw [List.map_cons, hc, hcs]

theorem tokensAux_digits (rest : List Char) :
    ∀ (ds : List Char) (acc : Option Nat), (∀ c ∈ ds, c.isDigit = true) → ds ≠ [] →
      tokensAux (ds ++ rest) acc =
        tokensAux rest (some (ds.foldl (fun a c => a * 10 + digitValue c) (acc.getD 0)))
  | [], _, _, hne => absurd rfl hne
  | [c], acc, h, _ => by
    have hc := h c (List.mem_cons_self _ _)
    simp [tokensAux, hc]
  | c :: c2 :: cs, acc, h, _ => by
    have hc := h c (List.mem_cons_self _ _)
    have ih := tokensAux_digits rest (c2 :: cs) (some (acc.getD 0 * 10 + digitValue c))
      (fun x hx => h x (List.mem_cons_of_mem _ hx)) (by simp)
    simp only [List.cons_append, tokensAux, hc, if_true] at ih ⊢
    rw [ih]
    simp

theorem tokensAux_after_number (n : Nat) (rest : List Char)
    (h : ∀ c, rest.head? = some c → c.isDigit = false) :
    tokensAux rest (some n) = Token.num n :: tokensAux rest none := by
  cases rest with
  | nil => rfl
  | cons c cs =>
    have hc := h c rfl
    simp [tokensAux, hc, flushNumber]

theorem tokensAux_append (rest : List Char) :
    ∀ (p : List Char) (acc : Option Nat), p ≠ [] →
      (∀ c, p.getLast? = some c → c.isDigit = false) →
      tokensAux (p ++ rest) acc = tokensAux p acc ++ tokensAux rest none
  | [], _, hne, _ => absurd rfl hne
  | [c], acc, _, h => by
    have hc := h c rfl
    simp [tokensAux, hc, flushNumber]
  | c :: c2 :: cs, acc, _, h => by
    have hlast : ∀ x, (c2 :: cs).getLast? = some x → x.isDigit = false := by
      intro x hx
      apply h x
      rw [List.getLast?_cons_cons]
      exact hx
    by_cases hc : c.isDigit = true
    · have ih := tokensAux_append rest (c2 :: cs) (some (acc.getD 0 * 10 + digitValue c))
        (by simp) hlast
      simp only [List.cons_append, tokensAux, hc, if_true] at ih ⊢
      exact ih
    · have ih := tokensAux_append rest (c2 :: cs) none (by simp) hlast
      simp only [List.cons_append, tokensAux, hc] at ih ⊢
      simp only [Bool.false_eq_true, if_false, List.append_assoc, List.cons_append]
      rw [ih]

theorem tokens_append (p rest : List Char)
    (h : ∀ c, p.getLast? = some c → c.isDigit = false) :
    tokens (p ++ rest) = tokens p ++ tokens rest := by
  cases p with
  | nil => rfl
  | cons c cs => exact tokensAux_append rest (c :: cs) none (by simp) h

theorem tokens_embedded (p ds s : List Char) (hp : ∀ c, p.getLast? = some c → c.isDigit = false)
    (hs : ∀ c, s.head? = some c → c.isDigit = false) (hds : ∀ c ∈ ds, c.isDigit = true)
    (hne : ds ≠ []) :
    tokens (p ++ ds ++ s) = tokens p ++ Token.num (digitsValue ds) :: tokens s := by
  rw [List.append_assoc, tokens_append p _ hp]
  congr 1
  unfold tokens
  rw [tokensAux_digits s ds none hds hne, tokensAux_after_number _ s hs]
  rfl

theorem compareToken_self (t : Token) : compareToken t t = 0 := by
  cases t <;> simp [compareToken]

theorem compareTokens_common (t : List Token) (a b : List Token) :
    compareTokens (t ++ a) (t ++ b) = compareTokens a b := by
  induction t with
  | nil => rfl
  | cons x xs ih => simp [compareTokens, compareToken_self, ih]

theorem lowerChars_getLast (p : List Char) (h : ∀ c, p.getLast? = some c → c.isDigit = false) :
    ∀ c, (lowerChars p).getLast? = some c → c.isDigit = false := by
  intro c hc
  unfold lowerChars at hc
  rw [List.getLast?_map] at hc
  cases hl : p.getLast? with
  | none => simp [hl] at hc
  | some x =>
    simp only [hl, Option.map_some', Option.some.injEq] at hc
    rw [← hc, toLower_isDigit]
    exact h x hl

theorem lowerChars_head (s : List Char) (h : ∀ c, s.head? = some c → c.isDigit = false) :
    ∀ c, (lowerChars s).head? = some c → c.isDigit = false := by
  intro c hc
  cases s with
  | nil => simp [lowerChars] at hc
  | cons x xs =>
    simp only [lowerChars, List.map_cons, List.head?_cons, Option.some.injEq] at hc
    rw [← hc, toLower_isDigit]
    exact h x rfl

/-! ## C5: embedded numbers compare by value -/

theorem localeCompare_embedded (p s dm dn : List Char)
    (hp : ∀ c, p.getLast? = some c → c.isDigit = false)
    (hs : ∀ c, s.head? = some c → c.isDigit = false)
    (hdm : ∀ c ∈ dm, c.isDigit = true) (hdm0 : dm ≠ [])
    (hdn : ∀ c ∈ dn, c.isDigit = true) (hdn0 : dn ≠ [])
    (hlt : digitsValue dm < digitsValue dn) :
    localeCompare (toLowerCase ⟨p ++ dm ++ s⟩) (toLowerCase ⟨p ++ dn ++ s⟩) = -1 := by
  unfold localeCompare toLowerCase
  simp only
  have e1 : lowerChars (p ++ dm ++ s) = lowerChars p ++ dm ++ lowerChars s := by
    simp only [lowerChars, List.map_append]
    have := lowerChars_digits dm hdm
    unfold lowerChars at this
    rw [this]
  have e2 : lowerChars (p ++ dn ++ s) = lowerChars p ++ dn ++ lowerChars s := by
    simp only [lowerChars, List.map_append]
    have := lowerChars_digits dn hdn
    unfold lowerChars at this
    rw [this]
  rw [e1, e2,
    tokens_embedded _ dm _ (lowerChars_getLast p hp) (lowerChars_head s hs) hdm hdm0,
    tokens_embedded _ dn _ (lowerChars_getLast p hp) (lowerChars_head s hs) hdn hdn0,
    compareTokens_common]
  simp [compareTokens, compareToken, hlt]

/-- C5: two names without direction token that agree except for one embedded run of
decimal digits are ordered by the numeric value of the run: `deviceSorter` is negative
on the name with the smaller number against the name with the larger one. -/
theorem deviceSorter_numeric (a b : Device) (p s dm dn : List Char)
    (ha : a.name = JsName.str ⟨p ++ dm ++ s⟩) (hb : b.name = JsName.str ⟨p ++ dn ++ s⟩)
    (hp : ∀ c, p.getLast? = some c → c.isDigit = false)
    (hs : ∀ c, s.head? = some c → c.isDigit = false)
    (hdm : ∀ c ∈ dm, c.isDigit = true) (hdm0 : dm ≠ [])
    (hdn : ∀ c ∈ dn, c.isDigit = true) (hdn0 : dn ≠ [])
    (hlt : digitsValue dm < digitsValue dn)
    (hdir : nameHas a "left" = false ∧ nameHas a "right" = false ∧
      nameHas b "left" = false ∧ nameHas b "right" = false) :
    deviceSorter a b = .ok (-1) := by
  rw [deviceSorter_str ha hb]
  obtain ⟨hal, har, _, hbr⟩ := hdir
  unfold nameHas at hal har hbr
  simp only [ha] at hal har
  simp only [hb] at hbr
  unfold compareNames
  simp only [hal, har, hbr, Bool.false_and, Bool.and_false, Bool.false_eq_true, if_false]
  rw [localeCompare_embedded p s dm dn hp hs hdm hdm0 hdn hdn0 hlt]

/-- C5 at `Lamp 2` and `Lamp 10`: the run `2` is numerically below the run `10`, so
`deviceSorter` is negative, although `Lamp 10` precedes `Lamp 2` character by
character; the sample bedroom accordingly lists `Lamp 2` first. -/
theorem deviceSorter_numeric_witness :
    digitsValue ['2'] < digitsValue ['1', '0'] ∧
    deviceSorter (sampleShown "d5" "Lamp 2" "light" false 0 (some "yellow") none)
      (sampleShown "d2" "Lamp 10" "light" true 63 (some "yellow") none) = .ok (-1) :=
  ⟨by decide,
    deviceSorter_numeric _ _ ['L', 'a', 'm', 'p', ' '] [] ['2'] ['1', '0'] (by rfl) (by rfl)
      (by decide) (by decide) (by decide) (by decide) (by decide) (by decide) (by decide)
      (by decide)⟩

/-! ## C6: the colour of a light -/

/-- C6, as stated, fails: a light whose `colorTemperature` is present with the value
zero, which is at most 2500, is shown yellow and not orange, because the test
`if (attributes.colorTemperature)` takes zero for a missing attribute. -/
theorem transformDeviceData_color_counterexample :
    (0 : Int) ≤ 2500 ∧
    (transformDeviceData
      { id := "l1", type := "light", isReachable := true, room := some livingRoom,
        attributes := some
          { customName := some (JsName.str "Lamp"), isOn := some true, lightLevel := some 50,
            colorTemperature := some 0, blindsCurrentLevel := none,
            batteryPercentage := none } }).map (fun t => t.color) = .ok (some "yellow") := by
  exact ⟨by decide, by rfl⟩

/-- C6, amended: for a light with an `attributes` record, `transformDeviceData`
returns a display model whose colour is white for a colour temperature above 3000,
yellow for one above 2500 and at most 3000, orange for one that is at most 2500 and
not zero, and yellow when the attribute is missing or zero. -/
theorem transformDeviceData_color (d : ApiDevice) (a : Attributes)
    (htype : d.type = "light") (hattr : d.attributes = some a) :
    ∃ t, transformDeviceData d = .ok t ∧
      (∀ n, a.colorTemperature = some n → 3000 < n → t.color = some "white") ∧
      (∀ n, a.colorTemperature = some n → 2500 < n → n ≤ 3000 → t.color = some "yellow") ∧
      (∀ n, a.colorTemperature = some n → n ≤ 2500 → n ≠ 0 → t.color = some "orange") ∧
      (a.colorTemperature = none ∨ a.colorTemperature = some 0 → t.color = some "yellow") := by
  unfold transformDeviceData
  simp only [hattr, htype, if_true]
  refine ⟨_, rfl, ?_, ?_, ?_, ?_⟩
  · intro n hn h1
    have h0 : n ≠ 0 := by omega
    simp [lightColor, truthyNumber, hn, h0, h1]
  · intro n hn h1 h2
    have h0 : n ≠ 0 := by omega
    have h3 : ¬ 3000 < n := by omega
    simp [lightColor, truthyNumber, hn, h0, h1, h3]
  · intro n hn h1 h0
    have h3 : ¬ 3000 < n := by omega
    have h4 : ¬ 2500 < n := by omega
    simp [lightColor, truthyNumber, hn, h0, h3, h4]
  · intro h
    rcases h with h | h <;> simp [lightColor, truthyNumber, h]

/-- C6 at four lights: 4000 gives white, 2700 yellow, 2200 orange, and a light
without the attribute yellow. -/
theorem transformDeviceData_color_witness :
    (∃ t, transformDeviceData (sampleDevice "d2" "Lamp 10" "light" true 63 bedRoom) = .ok t ∧
      (∀ n, (some 2700 : Option Int) = some n → 3000 < n → t.color = some "white") ∧
      (∀ n, (some 2700 : Option Int) = some n → 2500 < n → n ≤ 3000 →
        t.color = some "yellow") ∧
      (∀ n, (some 2700 : Option Int) = some n → n ≤ 2500 → n ≠ 0 → t.color = some "orange") ∧
      ((some 2700 : Option Int) = none ∨ (some 2700 : Option Int) = some 0 →
        t.color = some "yellow")) ∧
    [some 4000, some 2700, some 2200, none].map lightColor =
      ["white", "yellow", "orange", "yellow"] :=
  ⟨transformDeviceData_color (sampleDevice "d2" "Lamp 10" "light" true 63 bedRoom)
      { customName := some (JsName.str "Lamp 10"), isOn := some true, lightLevel := some 63,
        colorTemperature := some 2700, blindsCurrentLevel := some 63,
        batteryPercentage := some 80 } (by rfl) (by rfl),
    by decide⟩

/-! ## C7 and C8: the bulk toggle -/

theorem bulkTarget_iff (room : Room) :
    bulkTarget room = true ↔
      ∃ d ∈ room.devices, d.available = true ∧ truthyFlag d.isOn = false := by
  simp [bulkTarget]

theorem mem_sendSequentially (turnOn : Bool) (deviceId : String)
    (attributes : List (String × AttrValue)) :
    ∀ ds : List Device, Effect.patchIssued deviceId attributes ∈ sendSequentially turnOn ds →
      ∃ d ∈ ds, d.id = deviceId ∧ attributes = bulkPayload turnOn d
  | [], h => by simp [sendSequentially] at h
  | d :: ds, h => by
    simp only [sendSequentially, List.mem_cons, Effect.patchIssued.injEq, reduceCtorEq,
      false_or] at h
    rcases h with ⟨h1, h2⟩ | h
    · exact ⟨d, List.mem_cons_self _ _, h1.symm, h2⟩
    · obtain ⟨d2, hd2, h3⟩ := mem_sendSequentially turnOn deviceId attributes ds h
      exact ⟨d2, List.mem_cons_of_mem _ hd2, h3⟩

/-- C7: the bulk toggle of a room turns on exactly when some available device of the
room's device list is off, and off exactly when every available device is on; every
patch it issues goes to an available device of that list and carries this one
target: `isOn` with `lightLevel` 100 or 0 for a light, `blindsTargetLevel` 100 or 0
otherwise. -/
theorem roomToggleAll_target (page : Page) (roomIndex : Nat) (room : Room)
    (hroom : page.rooms[roomIndex]? = some room) :
    ∃ effects target, roomToggleAllClick false roomIndex page = .ok effects ∧
      (target = true ↔
        ∃ d ∈ room.devices, d.available = true ∧ truthyFlag d.isOn = false) ∧
      (target = false ↔
        ∀ d ∈ room.devices, d.available = true → truthyFlag d.isOn = true) ∧
      ∀ deviceId attributes, Effect.patchIssued deviceId attributes ∈ effects →
        ∃ d ∈ room.devices, d.available = true ∧ d.id = deviceId ∧
          ((d.type = "light" ∧ attributes =
              [("isOn", AttrValue.bool target),
                ("lightLevel", AttrValue.num (if target then 100 else 0))]) ∨
            (d.type ≠ "light" ∧ attributes =
              [("blindsTargetLevel", AttrValue.num (if target then 100 else 0))])) := by
  refine ⟨sendSequentially (bulkTarget room) (room.devices.filter (fun d => d.available)) ++
      [Effect.refetch], bulkTarget room, by simp [roomToggleAllClick, hroom],
    bulkTarget_iff room, ?_, ?_⟩
  · rw [← Bool.not_eq_true, bulkTarget_iff]
    constructor
    · intro h d hd hav
      by_contra hoff
      exact h ⟨d, hd, hav, by simpa using hoff⟩
    · rintro h ⟨d, hd, hav, hoff⟩
      rw [h d hd hav] at hoff
      exact absurd hoff (by decide)
  · intro deviceId attributes hmem
    simp only [List.mem_append, List.mem_singleton, reduceCtorEq, or_false] at hmem
    obtain ⟨d, hd, hid, hattr⟩ := mem_sendSequentially _ _ _ _ hmem
    obtain ⟨hd1, hd2⟩ := List.mem_filter.mp hd
    refine ⟨d, hd1, by simpa using hd2, hid, ?_⟩
    by_cases hl : d.type = "light"
    · left
      exact ⟨hl, by simp [hattr, bulkPayload, hl]⟩
    · right
      exact ⟨hl, by simp [hattr, bulkPayload, hl]⟩

/-- C7 at a room whose three reachable lights are on, off, off: three patches that
turn on; with all three on: three patches that turn off. The unreachable blind
gets none. -/
theorem roomToggleAll_target_witness :
    (∃ effects target,
      roomToggleAllClick false 0 ⟨[bulkRoom true false false], sampleColors⟩ = .ok effects ∧
      (target = true ↔
        ∃ d ∈ (bulkRoom true false false).devices,
          d.available = true ∧ truthyFlag d.isOn = false) ∧
      (target = false ↔
        ∀ d ∈ (bulkRoom true false false).devices,
          d.available = true → truthyFlag d.isOn = true) ∧
      ∀ deviceId attributes, Effect.patchIssued deviceId attributes ∈ effects →
        ∃ d ∈ (bulkRoom true false false).devices, d.available = true ∧ d.id = deviceId ∧
          ((d.type = "light" ∧ attributes =
              [("isOn", AttrValue.bool target),
                ("lightLevel", AttrValue.num (if target then 100 else 0))]) ∨
            (d.type ≠ "light" ∧ attributes =
              [("blindsTargetLevel", AttrValue.num (if target then 100 else 0))]))) ∧
    roomToggleAllClick false 0 ⟨[bulkRoom true false false], sampleColors⟩ =
      .ok [ Effect.patchIssued "a" [("isOn", AttrValue.bool true), ("lightLevel", AttrValue.num 100)],
            Effect.patchCompleted "a", Effect.delay 150,
            Effect.patchIssued "b" [("isOn", AttrValue.bool true), ("lightLevel", AttrValue.num 100)],
            Effect.patchCompleted "b", Effect.delay 150,
            Effect.patchIssued "c" [("isOn", AttrValue.bool true), ("lightLevel", AttrValue.num 100)],
            Effect.patchCompleted "c", Effect.delay 150,
            Effect.refetch ] ∧
    roomToggleAllClick false 0 ⟨[bulkRoom true true true], sampleColors⟩ =
      .ok [ Effect.patchIssued "a" [("isOn", AttrValue.bool false), ("lightLevel", AttrValue.num 0)],
            Effect.patchCompleted "a", Effect.delay 150,
            Effect.patchIssued "b" [("isOn", AttrValue.bool false), ("lightLevel", AttrValue.num 0)],
            Effect.patchCompleted "b", Effect.delay 150,
            Effect.patchIssued "c" [("isOn", AttrValue.bool false), ("lightLevel", AttrValue.num 0)],
            Effect.patchCompleted "c", Effect.delay 150,
            Effect.refetch ] :=
  ⟨roomToggleAll_target ⟨[bulkRoom true false false], sampleColors⟩ 0
      (bulkRoom true false false) (by rfl),
    by rfl, by rfl⟩

theorem patchedIds_sendSequentially (turnOn : Bool) :
    ∀ ds : List Device, ∀ tail : List Effect,
      patchedIds (sendSequentially turnOn ds ++ tail) = ds.map (fun d => d.id) ++ patchedIds tail
  | [], tail => rfl
  | d :: ds, tail => by
    have ih := patchedIds_sendSequentially turnOn ds tail
    unfold patchedIds at ih ⊢
    simp only [sendSequentially, List.cons_append, List.filterMap_cons, List.map_cons]
    rw [ih]

theorem completed_after_issued (turnOn : Bool) (deviceId : String)
    (attributes : List (String × AttrValue)) :
    ∀ (ds : List Device) (before after : List Effect),
      sendSequentially turnOn ds ++ [Effect.refetch] =
        before ++ Effect.patchIssued deviceId attributes :: after →
      ∃ rest, after = Effect.patchCompleted deviceId :: Effect.delay 150 :: rest
  | [], before, after, h => by
    simp only [sendSequentially, List.nil_append] at h
    cases before with
    | nil => simp at h
    | cons x xs =>
      simp only [List.cons_append, List.cons.injEq] at h
      have := h.2
      cases xs <;> simp at this
  | d :: ds, before, after, h => by
    simp only [sendSequentially, List.cons_append] at h
    cases before with
    | nil =>
      simp only [List.nil_append, List.cons.injEq, Effect.patchIssued.injEq] at h
      obtain ⟨⟨hid, _⟩, hafter⟩ := h
      exact ⟨_, by rw [← hafter, hid]⟩
    | cons x1 b1 =>
      simp only [List.cons_append, List.cons.injEq] at h
      obtain ⟨_, h⟩ := h
      cases b1 with
      | nil => simp at h
      | cons x2 b2 =>
        simp only [List.cons_append, List.cons.injEq] at h
        obtain ⟨_, h⟩ := h
        cases b2 with
        | nil => simp at h
        | cons x3 b3 =>
          simp only [List.cons_append, List.cons.injEq] at h
          obtain ⟨_, h⟩ := h
          exact completed_after_issued turnOn deviceId attributes ds b3 after h

theorem count_refetch_sendSequentially (turnOn : Bool) :
    ∀ ds : List Device, (sendSequentially turnOn ds).count Effect.refetch = 0
  | [] => rfl
  | d :: ds => by
    have ih := count_refetch_sendSequentially turnOn ds
    simp only [sendSequentially]
    rw [List.count_cons, List.count_cons, List.count_cons, ih]
    simp

/-- C8: the bulk toggle of a room patches the available devices of the room's device
list, once each and in the order of that list, and nothing else; the awaited
completion of a patch and the pause of 150 units directly follow the patch, ahead of
any later one; one call of `fetchAndProcessDevices` is made, as the last step. -/
theorem roomToggleAll_sequence (page : Page) (roomIndex : Nat) (room : Room)
    (hroom : page.rooms[roomIndex]? = some room) :
    ∃ effects, roomToggleAllClick false roomIndex page = .ok effects ∧
      patchedIds effects =
        (room.devices.filter (fun d => d.available)).map (fun d => d.id) ∧
      (∀ before after deviceId attributes,
        effects = before ++ Effect.patchIssued deviceId attributes :: after →
        ∃ rest, after = Effect.patchCompleted deviceId :: Effect.delay 150 :: rest) ∧
      effects.count Effect.refetch = 1 ∧
      effects.getLast? = some Effect.refetch := by
  refine ⟨sendSequentially (bulkTarget room) (room.devices.filter (fun d => d.available)) ++
      [Effect.refetch], by simp [roomToggleAllClick, hroom], ?_, ?_, ?_, ?_⟩
  · rw [patchedIds_sendSequentially]
    simp [patchedIds]
  · intro before after deviceId attributes h
    exact completed_after_issued _ _ _ _ _ _ h
  · rw [List.count_append, count_refetch_sendSequentially]
    rfl
  · simp

/-- C8 at the room with the lights `a`, `b`, `c` and the unreachable blind `x`: the
patches go to `a`, `b`, `c` in this order, and the remote `k` among the controllers
gets none. -/
theorem roomToggleAll_sequence_witness :
    (∃ effects,
      roomToggleAllClick false 0 ⟨[bulkRoom true false false], sampleColors⟩ = .ok effects ∧
      patchedIds effects =
        ((bulkRoom true false false).devices.filter (fun d => d.available)).map
          (fun d => d.id) ∧
      (∀ before after deviceId attributes,
        effects = before ++ Effect.patchIssued deviceId attributes :: after →
        ∃ rest, after = Effect.patchCompleted deviceId :: Effect.delay 150 :: rest) ∧
      effects.count Effect.refetch = 1 ∧
      effects.getLast? = some Effect.refetch) ∧
    ((bulkRoom true false false).devices.filter (fun d => d.available)).map (fun d => d.id) =
      ["a", "b", "c"] :=
  ⟨roomToggleAll_sequence ⟨[bulkRoom true false false], sampleColors⟩ 0
      (bulkRoom true false false) (by rfl),
    by decide⟩

/-! ## C9: the slider debounce -/

theorem sliderInput_ok {page : Page} {roomIndex deviceIndex : Nat} {device : Device}
    (hdev : deviceAt page roomIndex deviceIndex = some device) (newValue : Int) (now : Nat)
    (pending : Option Timer) :
    sliderInput roomIndex deviceIndex newValue now page pending =
      .ok (page, some ⟨now + 250, device.id, sliderPayload device newValue⟩) := by
  unfold sliderInput
  simp only [hdev]
  rfl

theorem fireDue_pending (now : Nat) (pending : Option Timer)
    (h : ∀ t, pending = some t → now < t.fireAt) : fireDue now pending = (pending, []) := by
  cases pending with
  | none => rfl
  | some t =>
    have := h t rfl
    have hn : ¬ t.fireAt ≤ now := by omega
    simp [fireDue, hn]

theorem sliderRun_rapid {page : Page} {roomIndex deviceIndex : Nat} {device : Device}
    (hdev : deviceAt page roomIndex deviceIndex = some device) :
    ∀ (ticks : List (Nat × Int)) (pending : Option Timer) (last : Nat × Int),
      isRapid ticks = true → ticks.getLast? = some last →
      (∀ first t, ticks.head? = some first → pending = some t → first.1 < t.fireAt) →
      sliderRun roomIndex deviceIndex page ticks pending =
        .ok [⟨last.1 + 250, device.id, sliderPayload device last.2⟩]
  | [], _, _, _, hlast, _ => by simp at hlast
  | [tick], pending, last, _, hlast, hpend => by
    simp only [List.getLast?_singleton, Option.some.injEq] at hlast
    subst hlast
    unfold sliderRun
    simp only [fireDue_pending tick.1 pending (fun t ht => hpend tick t rfl ht),
      sliderInput_ok hdev, sliderRun, List.nil_append]
  | tick :: tick2 :: rest, pending, last, hrapid, hlast, hpend => by
    simp only [isRapid, Bool.and_eq_true, decide_eq_true_eq] at hrapid
    rw [List.getLast?_cons_cons] at hlast
    have ih := sliderRun_rapid hdev (tick2 :: rest)
      (some ⟨tick.1 + 250, device.id, sliderPayload device tick.2⟩) last hrapid.2 hlast
      (by
        intro first t hfirst ht
        simp only [List.head?_cons, Option.some.injEq] at hfirst ht
        subst hfirst
        subst ht
        exact hrapid.1.2)
    unfold sliderRun
    simp only [fireDue_pending tick.1 pending (fun t ht => hpend tick t rfl ht),
      sliderInput_ok hdev, ih, List.nil_append]

/-- C9: on one slider whose timer is idle, a sequence of ticks each of which comes
less than 250 time units after the one before it dispatches exactly one patch
request: 250 time units after the last tick, carrying the value of the last tick. -/
theorem slider_debounce (page : Page) (roomIndex deviceIndex : Nat) (device : Device)
    (ticks : List (Nat × Int)) (last : Nat × Int)
    (hdev : deviceAt page roomIndex deviceIndex = some device)
    (hrapid : isRapid ticks = true) (hlast : ticks.getLast? = some last) :
    sliderRun roomIndex deviceIndex page ticks none =
      .ok [⟨last.1 + 250, device.id, sliderPayload device last.2⟩] :=
  sliderRun_rapid hdev ticks none last hrapid hlast (fun _ t _ ht => by simp at ht)

/-- C9 at five ticks within 240 time units on the slider of `Lamp 10`: one request,
at time 490, with the fifth value. -/
theorem slider_debounce_witness :
    deviceAt samplePage 1 1 =
      some (sampleShown "d2" "Lamp 10" "light" true 63 (some "yellow") none) ∧
    isRapid [(0, 10), (60, 25), (120, 40), (180, 55), (240, 70)] = true ∧
    sliderRun 1 1 samplePage [(0, 10), (60, 25), (120, 40), (180, 55), (240, 70)] none =
      .ok [⟨490, "d2", [("lightLevel", AttrValue.num 70)]⟩] :=
  ⟨by rfl, by decide,
    slider_debounce samplePage 1 1
      (sampleShown "d2" "Lamp 10" "light" true 63 (some "yellow") none)
      [(0, 10), (60, 25), (120, 40), (180, 55), (240, 70)] (240, 70) (by rfl)
      (by decide) (by rfl)⟩

/-! ## C10: the colour command -/

theorem deviceAt_setDeviceAt {page : Page} {roomIndex deviceIndex : Nat} {device : Device}
    (hdev : deviceAt page roomIndex deviceIndex = some device) (changed : Device) :
    deviceAt (setDeviceAt page roomIndex deviceIndex changed) roomIndex deviceIndex =
      some changed := by
  unfold deviceAt at hdev
  unfold setDeviceAt
  cases hroom : page.rooms[roomIndex]? with
  | none => simp [hroom] at hdev
  | some room =>
    simp only [hroom] at hdev ⊢
    obtain ⟨hr, _⟩ := List.getElem?_eq_some.mp hroom
    obtain ⟨hd, _⟩ := List.getElem?_eq_some.mp hdev
    unfold deviceAt
    simp only [List.getElem?_set_self hr, List.getElem?_set_self hd]

/-- C10: the colour button of a device dispatches exactly one patch request; its
attributes are the colour temperature of the chosen colour (4000 for white, 2700 for
yellow, 2200 for anything else) and `lightLevel` set to the stored value of the
device; the stored colour of the device becomes the chosen colour. -/
theorem colorButtonClick_dispatch (page : Page) (roomIndex deviceIndex : Nat)
    (color : String) (device : Device)
    (hdev : deviceAt page roomIndex deviceIndex = some device) :
    ∃ after effects temp,
      colorButtonClick roomIndex deviceIndex color page = .ok (after, effects) ∧
      patches effects =
        [(device.id,
          [("colorTemperature", AttrValue.num temp), ("lightLevel", AttrValue.num device.value)])] ∧
      (color = "white" → temp = 4000) ∧
      (color = "yellow" → temp = 2700) ∧
      (color ≠ "white" → color ≠ "yellow" → temp = 2200) ∧
      deviceAt after roomIndex deviceIndex = some { device with color := some color } := by
  refine ⟨setDeviceAt page roomIndex deviceIndex { device with color := some color },
    [ Effect.patchIssued device.id
        [("colorTemperature", AttrValue.num (colorTemperatureOf color)),
          ("lightLevel", AttrValue.num device.value)],
      Effect.render ],
    colorTemperatureOf color, ?_, rfl, ?_, ?_, ?_, deviceAt_setDeviceAt hdev _⟩
  · unfold colorButtonClick
    simp only [hdev]
  · intro h
    simp [colorTemperatureOf, h]
  · intro h
    simp [colorTemperatureOf, h]
  · intro h1 h2
    simp [colorTemperatureOf, h1, h2]

/-- C10 at `Lamp 10`, whose stored value is 63: choosing white dispatches one patch
with `colorTemperature: 4000` and `lightLevel: 63`. -/
theorem colorButtonClick_dispatch_witness :
    deviceAt samplePage 1 1 =
      some (sampleShown "d2" "Lamp 10" "light" true 63 (some "yellow") none) ∧
    (colorButtonClick 1 1 "white" samplePage).map (fun r => patches r.2) =
      .ok [("d2", [("colorTemperature", AttrValue.num 4000), ("lightLevel", AttrValue.num 63)])] ∧
    ∃ after effects temp,
      colorButtonClick 1 1 "white" samplePage = .ok (after, effects) ∧
      patches effects =
        [((sampleShown "d2" "Lamp 10" "light" true 63 (some "yellow") none).id,
          [("colorTemperature", AttrValue.num temp),
            ("lightLevel",
              AttrValue.num (sampleShown "d2" "Lamp 10" "light" true 63 (some "yellow") none).value)])] ∧
      ("white" = "white" → temp = 4000) ∧
      ("white" = "yellow" → temp = 2700) ∧
      ("white" ≠ "white" → "white" ≠ "yellow" → temp = 2200) ∧
      deviceAt after 1 1 =
        some { sampleShown "d2" "Lamp 10" "light" true 63 (some "yellow") none with
          color := some "white" } :=
  ⟨by rfl, by rfl,
    colorButtonClick_dispatch samplePage 1 1 "white"
      (sampleShown "d2" "Lamp 10" "light" true 63 (some "yellow") none) (by rfl)⟩

/-! ## C11: validation in the patch route -/

/-- C11, as stated, fails: a request whose `attributes` is the string `on`, which is
no attribute object, is not answered with 400; it is forwarded to the hub, because
the route only tests truthiness and the number of keys, and a non-empty string has
index keys. The same holds for a non-empty array. -/
theorem patchRoute_counterexample :
    patchRoute "d1" (some (JsonValue.str "on")) false =
      (⟨204, ""⟩, [patchDevice "d1" (JsonValue.str "on")]) ∧
    patchRoute "d1" (some (JsonValue.arr [JsonValue.num 1])) false =
      (⟨204, ""⟩, [patchDevice "d1" (JsonValue.arr [JsonValue.num 1])]) := by
  exact ⟨by rfl, by rfl⟩

/-- C11, amended: a request without `attributes`, or whose `attributes` is falsy or
has no keys, is answered with 400 and no hub call is made; a request whose
`attributes` is truthy and has a key, as every non-empty object is, makes exactly
one hub call, the `patchDevice` call with that id and those attributes. -/
theorem patchRoute_validates (deviceId : String) (hubFails : Bool) :
    patchRoute deviceId none hubFails =
      (⟨400, "Bad Request: 'attributes' payload is missing or empty."⟩, []) ∧
    (∀ value : JsonValue, value.truthy = false ∨ value.keyCount = 0 →
      patchRoute deviceId (some value) hubFails =
        (⟨400, "Bad Request: 'attributes' payload is missing or empty."⟩, [])) ∧
    (∀ value : JsonValue, value.truthy = true → value.keyCount ≠ 0 →
      (patchRoute deviceId (some value) hubFails).2 = [patchDevice deviceId value] ∧
      (patchRoute deviceId (some value) hubFails).1.status = if hubFails then 500 else 204) ∧
    (∀ fields : List (String × JsonValue), fields ≠ [] →
      (patchRoute deviceId (some (JsonValue.obj fields)) hubFails).2 =
        [patchDevice deviceId (JsonValue.obj fields)]) := by
  have hkeys : ∀ value : JsonValue, value.truthy = true → value.keyCount ≠ 0 →
      (patchRoute deviceId (some value) hubFails).2 = [patchDevice deviceId value] ∧
      (patchRoute deviceId (some value) hubFails).1.status = if hubFails then 500 else 204 := by
    intro value ht hk
    unfold patchRoute
    have hk2 : (value.keyCount == 0) = false := by simpa using hk
    cases hubFails <;> simp [ht, hk2]
  refine ⟨rfl, ?_, hkeys, ?_⟩
  · intro value h
    unfold patchRoute
    rcases h with h | h
    · simp [h]
    · simp [h]
  · intro fields hne
    refine (hkeys (JsonValue.obj fields) rfl ?_).1
    simpa [JsonValue.keyCount] using hne

/-- C11 at four bodies: the empty object, a missing field and `null` are refused with
400 and reach no hub call; an object with one attribute is forwarded once. -/
theorem patchRoute_validates_witness :
    patchRoute "d1" (some (JsonValue.obj [])) false =
      (⟨400, "Bad Request: 'attributes' payload is missing or empty."⟩, []) ∧
    patchRoute "d1" none false =
      (⟨400, "Bad Request: 'attributes' payload is missing or empty."⟩, []) ∧
    patchRoute "d1" (some JsonValue.null) false =
      (⟨400, "Bad Request: 'attributes' payload is missing or empty."⟩, []) ∧
    (patchRoute "d1" (some (JsonValue.obj [("isOn", JsonValue.bool true)])) false).2 =
      [patchDevice "d1" (JsonValue.obj [("isOn", JsonValue.bool true)])] :=
  ⟨(patchRoute_validates "d1" false).2.1 (JsonValue.obj []) (Or.inr rfl),
    (patchRoute_validates "d1" false).1,
    (patchRoute_validates "d1" false).2.1 JsonValue.null (Or.inl rfl),
    (patchRoute_validates "d1" false).2.2.2 [("isOn", JsonValue.bool true)] (by simp)⟩

/-! ## C12: the toggle of one device -/

theorem set_of_getElem? {α : Type} : ∀ (l : List α) (i : Nat) (a : α), l[i]? = some a →
    l.set i a = l
  | [], _, _, h => by simp at h
  | x :: xs, 0, a, h => by
    simp only [List.getElem?_cons_zero, Option.some.injEq] at h
    simp [h]
  | x :: xs, i + 1, a, h => by
    simp only [List.getElem?_cons_succ] at h
    simp [set_of_getElem? xs i a h]

theorem setDeviceAt_frame {page : Page} {roomIndex deviceIndex : Nat} {device : Device}
    (hdev : deviceAt page roomIndex deviceIndex = some device) (changed : Device) :
    (setDeviceAt page roomIndex deviceIndex changed).colors = page.colors ∧
    (setDeviceAt page roomIndex deviceIndex changed).rooms.map Room.header =
      page.rooms.map Room.header ∧
    (setDeviceAt page roomIndex deviceIndex changed).rooms.map (fun r => r.controllers) =
      page.rooms.map (fun r => r.controllers) ∧
    ∀ i j, i ≠ roomIndex ∨ j ≠ deviceIndex →
      deviceAt (setDeviceAt page roomIndex deviceIndex changed) i j = deviceAt page i j := by
  unfold deviceAt at hdev
  unfold setDeviceAt
  cases hroom : page.rooms[roomIndex]? with
  | none => simp [hroom] at hdev
  | some room =>
    simp only [hroom] at hdev ⊢
    obtain ⟨hr, _⟩ := List.getElem?_eq_some.mp hroom
    refine ⟨?_, ?_, ?_, ?_⟩
    · first | rfl | trivial
    · rw [List.map_set]
      apply set_of_getElem?
      rw [List.getElem?_map, hroom]
      rfl
    · rw [List.map_set]
      apply set_of_getElem?
      rw [List.getElem?_map, hroom]
      rfl
    · intro i j hij
      unfold deviceAt
      by_cases hi : i = roomIndex
      · subst hi
        have hj : j ≠ deviceIndex := by
          rcases hij with h | h
          · exact absurd rfl h
          · exact h
        simp only [List.getElem?_set_self hr, hroom]
        exact List.getElem?_set_ne (Ne.symm hj)
      · simp only [List.getElem?_set_ne (Ne.symm hi)]

theorem deviceToggleClick_ok {page : Page} {roomIndex deviceIndex : Nat} {device : Device}
    (hdev : deviceAt page roomIndex deviceIndex = some device) :
    deviceToggleClick roomIndex deviceIndex page =
      .ok (setDeviceAt page roomIndex deviceIndex
          { device with
            isOn := some (!truthyFlag device.isOn)
            value := if (!truthyFlag device.isOn) = true then 100 else 0 },
        [ Effect.patchIssued device.id
            (togglePayload device (!truthyFlag device.isOn)
              (if (!truthyFlag device.isOn) = true then 100 else 0)),
          Effect.render ]) := by
  unfold deviceToggleClick
  simp only [hdev]

/-- C12, as stated, fails: toggling the lit `Lamp 10` dispatches a patch that carries
only `isOn: false` and no numeric target 0, and toggling the blind dispatches only
`blindsTargetLevel` and no on/off state. -/
theorem deviceToggleClick_counterexample :
    (deviceToggleClick 1 1 samplePage).map (fun r => patches r.2) =
      .ok [("d2", [("isOn", AttrValue.bool false)])] ∧
    (deviceToggleClick 0 0 samplePage).map (fun r => patches r.2) =
      .ok [("d3", [("blindsTargetLevel", AttrValue.num 100)])] := by
  exact ⟨by rfl, by rfl⟩

/-- C12, amended: the toggle of a device computes `newOn` as the negation of the
stored `on` flag and the target 100 for `newOn`, 0 otherwise; it stores `newOn` and
the target on the device and leaves the colour globals, every room header, every
controllers list and every other device as they are; it dispatches exactly one patch,
which for a light carries `isOn = newOn`, with `lightLevel` 100 only when `newOn`,
and for any other device carries `blindsTargetLevel` set to the target. -/
theorem deviceToggleClick_effect (page : Page) (roomIndex deviceIndex : Nat)
    (device : Device) (hdev : deviceAt page roomIndex deviceIndex = some device) :
    ∃ after effects newOn target payload,
      deviceToggleClick roomIndex deviceIndex page = .ok (after, effects) ∧
      newOn = !truthyFlag device.isOn ∧
      target = (if newOn = true then (100 : Int) else 0) ∧
      deviceAt after roomIndex deviceIndex =
        some { device with isOn := some newOn, value := target } ∧
      after.colors = page.colors ∧
      after.rooms.map Room.header = page.rooms.map Room.header ∧
      after.rooms.map (fun r => r.controllers) = page.rooms.map (fun r => r.controllers) ∧
      (∀ i j, i ≠ roomIndex ∨ j ≠ deviceIndex → deviceAt after i j = deviceAt page i j) ∧
      patches effects = [(device.id, payload)] ∧
      (device.type = "light" → newOn = true →
        payload = [("isOn", AttrValue.bool true), ("lightLevel", AttrValue.num 100)]) ∧
      (device.type = "light" → newOn = false → payload = [("isOn", AttrValue.bool false)]) ∧
      (device.type ≠ "light" → payload = [("blindsTargetLevel", AttrValue.num target)]) := by
  obtain ⟨hc, hh, hctl, hother⟩ := setDeviceAt_frame hdev
    { device with
      isOn := some (!truthyFlag device.isOn)
      value := if (!truthyFlag device.isOn) = true then 100 else 0 }
  refine ⟨_, _, !truthyFlag device.isOn, if (!truthyFlag device.isOn) = true then 100 else 0,
    togglePayload device (!truthyFlag device.isOn)
      (if (!truthyFlag device.isOn) = true then 100 else 0),
    deviceToggleClick_ok hdev, rfl, rfl, deviceAt_setDeviceAt hdev _, hc, hh, hctl, hother,
    rfl, ?_, ?_, ?_⟩
  · intro hl hon
    simp [togglePayload, hl, hon]
  · intro hl hoff
    simp [togglePayload, hl, hoff]
  · intro hl
    simp [togglePayload, hl]

/-- C12 at the unlit `Lamp 2`: the toggle stores on and 100 and dispatches one patch
with `isOn: true` and `lightLevel: 100`. -/
theorem deviceToggleClick_effect_witness :
    deviceAt samplePage 1 0 =
      some (sampleShown "d5" "Lamp 2" "light" false 0 (some "yellow") none) ∧
    (deviceToggleClick 1 0 samplePage).map (fun r => (patches r.2, deviceAt r.1 1 0)) =
      .ok ([("d5", [("isOn", AttrValue.bool true), ("lightLevel", AttrValue.num 100)])],
        some (sampleShown "d5" "Lamp 2" "light" true 100 (some "yellow") none)) ∧
    ∃ after effects newOn target payload,
      deviceToggleClick 1 0 samplePage = .ok (after, effects) ∧
      newOn = !truthyFlag (sampleShown "d5" "Lamp 2" "light" false 0 (some "yellow") none).isOn ∧
      target = (if newOn = true then (100 : Int) else 0) ∧
      deviceAt after 1 0 =
        some { sampleShown "d5" "Lamp 2" "light" false 0 (some "yellow") none with
          isOn := some newOn, value := target } ∧
      after.colors = samplePage.colors ∧
      after.rooms.map Room.header = samplePage.rooms.map Room.header ∧
      after.rooms.map (fun r => r.controllers) =
        samplePage.rooms.map (fun r => r.controllers) ∧
      (∀ i j, i ≠ 1 ∨ j ≠ 0 → deviceAt after i j = deviceAt samplePage i j) ∧
      patches effects =
        [((sampleShown "d5" "Lamp 2" "light" false 0 (some "yellow") none).id, payload)] ∧
      ((sampleShown "d5" "Lamp 2" "light" false 0 (some "yellow") none).type = "light" →
        newOn = true →
        payload = [("isOn", AttrValue.bool true), ("lightLevel", AttrValue.num 100)]) ∧
      ((sampleShown "d5" "Lamp 2" "light" false 0 (some "yellow") none).type = "light" →
        newOn = false → payload = [("isOn", AttrValue.bool false)]) ∧
      ((sampleShown "d5" "Lamp 2" "light" false 0 (some "yellow") none).type ≠ "light" →
        payload = [("blindsTargetLevel", AttrValue.num target)]) :=
  ⟨by rfl, by rfl,
    deviceToggleClick_effect samplePage 1 0
      (sampleShown "d5" "Lamp 2" "light" false 0 (some "yellow") none) (by rfl)⟩

/-! ## C13: when reconciliation succeeds -/

theorem nameOrType_str {customName : Option JsName} (type : String)
    (h : ∀ n, customName = some (JsName.num n) → n = 0) :
    ∃ s, nameOrType customName type = JsName.str s := by
  unfold nameOrType
  cases customName with
  | none => exact ⟨type, rfl⟩
  | some v =>
    cases v with
    | str s =>
      by_cases ht : (JsName.str s).truthy = true
      · exact ⟨s, by simp [ht]⟩
      · exact ⟨type, by simp [ht]⟩
    | num n =>
      have hn := h n rfl
      subst hn
      exact ⟨type, by simp [JsName.truthy]⟩

theorem transformDeviceData_name {d : ApiDevice} {a : Attributes} (ha : d.attributes = some a) :
    ∃ t, transformDeviceData d = .ok t ∧ t.name = nameOrType a.customName d.type := by
  unfold transformDeviceData
  simp only [ha]
  by_cases h1 : d.type = "light"
  · simp [h1]
  · by_cases h2 : d.type = "blinds"
    · simp [h1, h2]
    · by_cases h3 : d.type = "controller"
      · simp [h1, h2, h3]
      · simp [h1, h2, h3]

theorem transformDeviceData_wellFormed {d : ApiDevice} (h : WellFormed d) :
    ∃ t s, transformDeviceData d = .ok t ∧ t.name = JsName.str s := by
  obtain ⟨a, ha, hname⟩ := h
  obtain ⟨t, ht, hn⟩ := transformDeviceData_name ha
  obtain ⟨s, hs⟩ := nameOrType_str d.type hname
  exact ⟨t, s, ht, hn.trans hs⟩

theorem namesAreStrings_ensureRoom (states : List (String × Bool)) (roomObj : ApiRoom)
    (cs : ColorState) (rooms : List Room) (h : NamesAreStrings rooms) :
    NamesAreStrings (ensureRoom states roomObj cs rooms).2 := by
  unfold ensureRoom
  by_cases hh : hasRoom rooms roomObj.id = true
  · simpa [hh] using h
  · simp only [hh, Bool.false_eq_true, if_false]
    intro r hr d hd
    rcases List.mem_append.mp hr with hr | hr
    · exact h r hr d hd
    · simp only [List.mem_singleton] at hr
      subst hr
      simp at hd

theorem namesAreStrings_pushDevice (roomId type : String) (t : Device) {s : String}
    (ht : t.name = JsName.str s) :
    ∀ rooms : List Room, NamesAreStrings rooms →
      NamesAreStrings (pushDevice roomId type t rooms)
  | [], h => by simpa [pushDevice] using h
  | r :: rs, h => by
    have hr : ∀ d ∈ r.devices ++ r.controllers, ∃ s, d.name = JsName.str s :=
      h r (List.mem_cons_self _ _)
    have hrs : NamesAreStrings rs := fun x hx => h x (List.mem_cons_of_mem _ hx)
    unfold pushDevice
    by_cases hid : r.id = roomId
    · simp only [hid, if_true]
      intro x hx d hd
      rcases List.mem_cons.mp hx with e | hx
      · subst e
        have hmem : d ∈ r.devices ++ r.controllers ∨ d = t := by
          unfold addToRoom at hd
          by_cases h1 : type = "light" ∨ type = "blinds"
          · rw [if_pos h1] at hd
            simp only [List.mem_append, List.mem_singleton] at hd ⊢
            tauto
          · by_cases h2 : type = "controller"
            · rw [if_neg h1, if_pos h2] at hd
              simp only [List.mem_append, List.mem_singleton] at hd ⊢
              tauto
            · rw [if_neg h1, if_neg h2] at hd
              exact Or.inl hd
        rcases hmem with hmem | hmem
        · exact hr d hmem
        · exact ⟨s, hmem ▸ ht⟩
      · exact hrs x hx d hd
    · simp only [hid, if_false]
      intro x hx d hd
      rcases List.mem_cons.mp hx with e | hx
      · subst e
        exact hr d hd
      · exact namesAreStrings_pushDevice roomId type t ht rs hrs x hx d hd

theorem groupDevices_succeeds (states : List (String × Bool)) (ds : List ApiDevice) :
    ∀ (cs : ColorState) (rooms : List Room), (∀ d ∈ ds, WellFormed d) →
      NamesAreStrings rooms →
      ∃ out, (groupDevices states ds cs rooms).2 = .ok out ∧ NamesAreStrings out := by
  induction ds with
  | nil =>
    intro cs rooms _ h
    exact ⟨rooms, rfl, h⟩
  | cons d rest ih =>
    intro cs rooms hwf h
    have hrest : ∀ x ∈ rest, WellFormed x := fun x hx => hwf x (List.mem_cons_of_mem _ hx)
    unfold groupDevices
    cases hroom : d.room with
    | none => exact ih cs rooms hrest h
    | some roomObj =>
      obtain ⟨t, s, ht, hs⟩ := transformDeviceData_wellFormed (hwf d (List.mem_cons_self _ _))
      simp only [ht]
      exact ih _ _ hrest
        (namesAreStrings_pushDevice _ _ t hs _ (namesAreStrings_ensureRoom _ _ _ _ h))

theorem orderedInsert_succeeds (a : Device) {sa : String} (ha : a.name = JsName.str sa) :
    ∀ l : List Device, (∀ d ∈ l, ∃ s, d.name = JsName.str s) →
      ∃ out, orderedInsert deviceSorter a l = .ok out
  | [], _ => ⟨[a], rfl⟩
  | b :: l, h => by
    obtain ⟨sb, hb⟩ := h b (List.mem_cons_self _ _)
    obtain ⟨out, hout⟩ := orderedInsert_succeeds a ha l
      (fun d hd => h d (List.mem_cons_of_mem _ hd))
    unfold orderedInsert
    simp only [deviceSorter_str ha hb, bind, Except.bind]
    by_cases hc : compareNames (toLowerCase sa) (toLowerCase sb) ≤ 0
    · exact ⟨a :: b :: l, by simp [hc, pure, Except.pure]⟩
    · exact ⟨b :: out, by simp [hc, hout, pure, Except.pure]⟩

theorem sortWith_succeeds :
    ∀ l : List Device, (∀ d ∈ l, ∃ s, d.name = JsName.str s) →
      ∃ out, sortWith deviceSorter l = .ok out
  | [], _ => ⟨[], rfl⟩
  | a :: l, h => by
    obtain ⟨sa, ha⟩ := h a (List.mem_cons_self _ _)
    obtain ⟨s0, hs0⟩ := sortWith_succeeds l (fun d hd => h d (List.mem_cons_of_mem _ hd))
    have hperm := sortWith_perm deviceSorter l s0 hs0
    obtain ⟨out, hout⟩ := orderedInsert_succeeds a ha s0
      (fun d hd => h d (List.mem_cons_of_mem _ (hperm.mem_iff.mp hd)))
    unfold sortWith
    exact ⟨out, by simp [hs0, hout, bind, Except.bind]⟩

theorem sortRooms_succeeds :
    ∀ rooms : List Room, NamesAreStrings rooms → ∃ out, sortRooms rooms = .ok out
  | [], _ => ⟨[], rfl⟩
  | r :: rs, h => by
    have hr := h r (List.mem_cons_self _ _)
    obtain ⟨ds, hds⟩ := sortWith_succeeds r.devices
      (fun d hd => hr d (List.mem_append.mpr (Or.inl hd)))
    obtain ⟨ctl, hctl⟩ := sortWith_succeeds r.controllers
      (fun d hd => hr d (List.mem_append.mpr (Or.inr hd)))
    obtain ⟨others, hothers⟩ := sortRooms_succeeds rs
      (fun x hx => h x (List.mem_cons_of_mem _ hx))
    unfold sortRooms sortRoom
    exact ⟨{ r with devices := ds, controllers := ctl } :: others,
      by simp [hds, hctl, hothers, bind, Except.bind, pure, Except.pure]⟩

/-- C13, as stated, fails: a relevant light without an `attributes` object makes
`transformDeviceData` throw, and two lights of one room of which one has a number
for its name make `deviceSorter` throw; in both cases reconciliation ends in a type
error. -/
theorem reconcile_can_fail :
    (reconcile samplePrevious bareSnapshot sampleColors).2 = .error JsError.typeError ∧
    (reconcile samplePrevious numberedSnapshot sampleColors).2 = .error JsError.typeError := by
  exact ⟨by rfl, by rfl⟩

/-- C13, amended: when every relevant device of the snapshot has an `attributes`
object whose `customName` is missing, a string or zero, reconciliation returns a
room list and raises no error; and for a device that has an `attributes` object, a
missing `lightLevel` of a light and a missing `blindsCurrentLevel` of a blind give
the value 0. -/
theorem reconcile_succeeds (previousRooms : List Room) (apiDevices : List ApiDevice)
    (cs : ColorState)
    (hwf : ∀ d ∈ apiDevices, isRelevant d = true → WellFormed d) :
    (∃ out, (reconcile previousRooms apiDevices cs).2 = .ok out) ∧
    ∀ (d : ApiDevice) (a : Attributes), d.attributes = some a →
      (d.type = "light" → a.lightLevel = none →
        ∃ t, transformDeviceData d = .ok t ∧ t.value = 0) ∧
      (d.type = "blinds" → a.blindsCurrentLevel = none →
        ∃ t, transformDeviceData d = .ok t ∧ t.value = 0) := by
  constructor
  · obtain ⟨grouped, hg, hnames⟩ := groupDevices_succeeds (existingRoomStates previousRooms)
      (apiDevices.filter isRelevant) cs []
      (fun d hd => hwf d (List.mem_filter.mp hd).1 (List.mem_filter.mp hd).2)
      (fun r hr => by simp at hr)
    obtain ⟨out, hout⟩ := sortRooms_succeeds grouped hnames
    refine ⟨out, ?_⟩
    unfold reconcile
    simp only [hg, hout]
  · intro d a ha
    constructor
    · intro ht hl
      unfold transformDeviceData
      simp [ha, ht, hl, orZero]
    · intro ht hl
      unfold transformDeviceData
      simp [ha, ht, hl, orZero]

/-- C13 at the sample snapshot, all of whose relevant devices are well formed: it
reconciles to the sample rooms. -/
theorem reconcile_succeeds_witness :
    (∀ d ∈ sampleSnapshot, isRelevant d = true → WellFormed d) ∧
    ((∃ out, (reconcile samplePrevious sampleSnapshot sampleColors).2 = .ok out) ∧
    ∀ (d : ApiDevice) (a : Attributes), d.attributes = some a →
      (d.type = "light" → a.lightLevel = none →
        ∃ t, transformDeviceData d = .ok t ∧ t.value = 0) ∧
      (d.type = "blinds" → a.blindsCurrentLevel = none →
        ∃ t, transformDeviceData d = .ok t ∧ t.value = 0)) := by
  have hwf : ∀ d ∈ sampleSnapshot, isRelevant d = true → WellFormed d := by
    intro d hd hrel
    simp only [sampleSnapshot, List.mem_cons, List.mem_singleton, List.not_mem_nil,
      or_false] at hd
    rcases hd with e | e | e | e | e | e | e | e <;> subst e
    · exact absurd hrel (by decide)
    all_goals exact ⟨_, rfl, fun n hn => by simp at hn⟩
  exact ⟨hwf, reconcile_succeeds samplePrevious sampleSnapshot sampleColors hwf⟩

/-! ## C14: the colour of a room name -/

theorem mapColor_fresh (roomName : String) (cs : ColorState)
    (hnew : cs.roomColorMap.lookup roomName = none) (hown : roomName ∉ objectPrototypeKeys) :
    mapColor roomName cs =
      (ColorValue.theme (staticColorThemes.getD (cs.colorIndex % 8) ⟨"", ""⟩),
        ⟨cs.roomColorMap ++
            [(roomName, staticColorThemes.getD (cs.colorIndex % 8) ⟨"", ""⟩)],
          cs.colorIndex + 1⟩) := by
  unfold mapColor readColor
  simp only [hnew, hown, if_false]
  rfl

/-- C14 fails on the code for a room named after a member of `Object.prototype`: the
call `mapColor("constructor")` in a fresh session finds the inherited member, returns
it instead of a palette entry, stores nothing and does not advance `colorIndex`; in
the session `Living`, `constructor`, `Bed` the third distinct name therefore gets
palette entry 1 and not entry 2. -/
theorem mapColor_inherited_name :
    mapColor "constructor" ⟨[], 0⟩ = (ColorValue.inherited "constructor", ⟨[], 0⟩) ∧
    (∀ t ∈ staticColorThemes, ColorValue.inherited "constructor" ≠ ColorValue.theme t) ∧
    (mapColorAll ["Living", "constructor", "Bed"] ⟨[], 0⟩).1 =
      [ ColorValue.theme ⟨"#8DBCD4", "#1f2937"⟩, ColorValue.inherited "constructor",
        ColorValue.theme ⟨"#9FB842", "#1f2937"⟩ ] ∧
    staticColorThemes[1]? = some ⟨"#9FB842", "#1f2937"⟩ ∧
    staticColorThemes[2 % 8]? = some ⟨"#FFDD51", "#1f2937"⟩ := by
  refine ⟨by rfl, ?_, by rfl, by rfl, by rfl⟩
  intro t _ h
  exact ColorValue.noConfusion h

/-! ## C15: one room per room id, in order of first appearance -/

theorem FirstSeenBefore.cons {ds : List ApiDevice} {x y : String} (d : ApiDevice)
    (h : FirstSeenBefore ds x y) (hd : belongsTo y d = false) :
    FirstSeenBefore (d :: ds) x y := by
  obtain ⟨pre, d0, post, hsplit, hx, hy⟩ := h
  refine ⟨d :: pre, d0, post, by rw [hsplit]; rfl, hx, ?_⟩
  intro e he
  rcases List.mem_cons.mp he with e1 | e1
  · rw [e1]; exact hd
  · exact hy e e1

theorem roomIdsAfter_structure (ds : List ApiDevice) :
    ∀ ids : List String, ∃ fresh : List String,
      roomIdsAfter ds ids = ids ++ fresh ∧
      (∀ y ∈ fresh, y ∉ ids) ∧
      fresh.Pairwise (FirstSeenBefore ds) ∧
      ∀ y ∈ fresh, ∃ d ∈ ds, belongsTo y d = true := by
  induction ds with
  | nil =>
    intro ids
    exact ⟨[], by simp [roomIdsAfter], by simp, List.Pairwise.nil, by simp⟩
  | cons d rest ih =>
    intro ids
    unfold roomIdsAfter
    cases hroom : d.room with
    | none =>
      obtain ⟨fresh, h1, h2, h3, h4⟩ := ih ids
      have hno : ∀ y, belongsTo y d = false := fun y => by simp [belongsTo, hroom]
      refine ⟨fresh, h1, h2, h3.imp (fun hxy => hxy.cons d (hno _)), ?_⟩
      intro y hy
      obtain ⟨e, he, hb⟩ := h4 y hy
      exact ⟨e, List.mem_cons_of_mem _ he, hb⟩
    | some roomObj =>
      simp only
      by_cases hm : roomObj.id ∈ ids
      · simp only [hm, if_true]
        obtain ⟨fresh, h1, h2, h3, h4⟩ := ih ids
        refine ⟨fresh, h1, h2, ?_, ?_⟩
        · refine h3.imp_of_mem ?_
          intro x y _ hy hxy
          refine hxy.cons d ?_
          have hne : roomObj.id ≠ y := fun e => h2 y hy (e ▸ hm)
          simpa [belongsTo, hroom] using hne
        · intro y hy
          obtain ⟨e, he, hb⟩ := h4 y hy
          exact ⟨e, List.mem_cons_of_mem _ he, hb⟩
      · simp only [hm, if_false]
        obtain ⟨fresh, h1, h2, h3, h4⟩ := ih (ids ++ [roomObj.id])
        have hself : belongsTo roomObj.id d = true := by simp [belongsTo, hroom]
        refine ⟨roomObj.id :: fresh, by rw [h1]; simp, ?_, ?_, ?_⟩
        · intro y hy
          rcases List.mem_cons.mp hy with e | hy
          · rw [e]; exact hm
          · exact fun hin => h2 y hy (List.mem_append.mpr (Or.inl hin))
        · refine List.pairwise_cons.mpr ⟨?_, ?_⟩
          · intro y _
            exact ⟨[], d, rest, rfl, hself, by simp⟩
          · refine h3.imp_of_mem ?_
            intro x y _ hy hxy
            refine hxy.cons d ?_
            have hne : roomObj.id ≠ y := fun e =>
              h2 y hy (List.mem_append.mpr (Or.inr (by simp [e])))
            simpa [belongsTo, hroom] using hne
        · intro y hy
          rcases List.mem_cons.mp hy with e | hy
          · exact ⟨d, List.mem_cons_self _ _, by rw [e]; exact hself⟩
          · obtain ⟨e, he, hb⟩ := h4 y hy
            exact ⟨e, List.mem_cons_of_mem _ he, hb⟩

theorem firstSeenBefore_of_filter {apiDevices : List ApiDevice} {x y : String}
    (h : FirstSeenBefore (apiDevices.filter isRelevant) x y) :
    ∃ pre d post, apiDevices = pre ++ d :: post ∧ isRelevant d = true ∧
      belongsTo x d = true ∧ ∀ e ∈ pre, isRelevant e = true → belongsTo y e = false := by
  obtain ⟨pre, d, post, hsplit, hx, hy⟩ := h
  obtain ⟨l1, l2, hl, hf1, hf2⟩ := List.filter_eq_append_iff.mp hsplit
  obtain ⟨m1, m2, hm, hnot, hd, _⟩ := List.filter_eq_cons_iff.mp hf2
  refine ⟨l1 ++ m1, d, m2, by rw [hl, hm, List.append_assoc], hd, hx, ?_⟩
  intro e he hrel
  rcases List.mem_append.mp he with he | he
  · exact hy e (hf1 ▸ List.mem_filter.mpr ⟨he, hrel⟩)
  · exact absurd hrel (hnot e he)

/-- C15: after a successful reconciliation the room ids are pairwise distinct; an id
is among them exactly when some relevant device of the snapshot carries it; of two
rooms the earlier is the one a relevant device of which stands in the snapshot
ahead of every relevant device of the other; and this list is what
`fetchAndProcessDevices` stores as `homeData.rooms`, whatever the previous rooms
were. -/
theorem reconcile_room_order (previousRooms : List Room) (apiDevices : List ApiDevice)
    (cs cs2 : ColorState) (out : List Room)
    (h : reconcile previousRooms apiDevices cs = (cs2, .ok out)) :
    (out.map (fun r => r.id)).Nodup ∧
    (∀ id, id ∈ out.map (fun r => r.id) ↔
      ∃ d ∈ apiDevices, isRelevant d = true ∧ belongsTo id d = true) ∧
    (out.map (fun r => r.id)).Pairwise (fun x y =>
      ∃ pre d post, apiDevices = pre ++ d :: post ∧ isRelevant d = true ∧
        belongsTo x d = true ∧ ∀ e ∈ pre, isRelevant e = true → belongsTo y e = false) ∧
    (fetchAndProcessDevices (FetchResult.devices apiDevices) ⟨previousRooms, cs⟩).1.rooms =
      out := by
  have hids := reconcile_map_id h
  obtain ⟨fresh, h1, _, h3, h4⟩ := roomIdsAfter_structure (apiDevices.filter isRelevant) []
  simp only [List.nil_append] at h1
  refine ⟨?_, ?_, ?_, ?_⟩
  · rw [hids]
    exact roomIdsAfter_nodup _ _ List.nodup_nil
  · intro id
    rw [hids]
    constructor
    · intro hid
      rw [h1] at hid
      obtain ⟨d, hd, hb⟩ := h4 id hid
      exact ⟨d, (List.mem_filter.mp hd).1, (List.mem_filter.mp hd).2, hb⟩
    · rintro ⟨d, hd, hrel, hb⟩
      unfold belongsTo at hb
      cases hroom : d.room with
      | none => simp [hroom] at hb
      | some roomObj =>
        simp only [hroom, beq_iff_eq] at hb
        rw [← hb]
        exact roomIdsAfter_covers _ _ d roomObj (List.mem_filter.mpr ⟨hd, hrel⟩) hroom
  · rw [hids, h1]
    exact h3.imp firstSeenBefore_of_filter
  · unfold fetchAndProcessDevices
    simp only [h]

/-- C15 at the sample snapshot: the living room, whose blind comes first, precedes
the bedroom, and the stored room list is the new one. -/
theorem reconcile_room_order_witness :
    sampleRooms.map (fun r => r.id) = ["r1", "r2"] ∧
    ((sampleRooms.map (fun r => r.id)).Nodup ∧
    (∀ id, id ∈ sampleRooms.map (fun r => r.id) ↔
      ∃ d ∈ sampleSnapshot, isRelevant d = true ∧ belongsTo id d = true) ∧
    (sampleRooms.map (fun r => r.id)).Pairwise (fun x y =>
      ∃ pre d post, sampleSnapshot = pre ++ d :: post ∧ isRelevant d = true ∧
        belongsTo x d = true ∧ ∀ e ∈ pre, isRelevant e = true → belongsTo y e = false) ∧
    (fetchAndProcessDevices (FetchResult.devices sampleSnapshot)
        ⟨samplePrevious, sampleColors⟩).1.rooms = sampleRooms) :=
  ⟨by decide,
    reconcile_room_order samplePrevious sampleSnapshot sampleColors sampleColorsAfter
      sampleRooms reconcile_sample⟩

/-! ## C16: a failed request -/

/-- C16 fails on the code: the request and the status test stand ahead of the `try`
block, so a rejected `fetch` and a response with status 500 are not caught; the
promise of `fetchAndProcessDevices` is rejected with the error. The stored rooms stay
as they were. -/
theorem fetchAndProcessDevices_request_failure :
    fetchAndProcessDevices FetchResult.rejected samplePage =
      (samplePage, some JsError.networkError) ∧
    fetchAndProcessDevices (FetchResult.notOk 500) samplePage =
      (samplePage, some (JsError.httpError 500)) := by
  exact ⟨by rfl, by rfl⟩

/-! ## C17: the comparator is no consistent ordering -/

/-- C17 fails on the code: `deviceSorter` gives -1, not 0, for `Bright Left Lamp`
against itself, whose lowercased name contains both tokens; it puts `Bright Lamp`
before `Desk Lamp`, `Desk Lamp` before `Left Lamp` and `Left Lamp` before
`Bright Lamp`; and the hallway of `directionSnapshot` is shown in another order when
the same records arrive permuted. -/
theorem deviceSorter_inconsistent :
    deviceSorter (sampleShown "s1" "Bright Left Lamp" "light" true 50 (some "yellow") none)
      (sampleShown "s1" "Bright Left Lamp" "light" true 50 (some "yellow") none) = .ok (-1) ∧
    deviceSorter (sampleShown "h1" "Bright Lamp" "light" true 50 (some "yellow") none)
      (sampleShown "h2" "Desk Lamp" "light" true 50 (some "yellow") none) = .ok (-1) ∧
    deviceSorter (sampleShown "h2" "Desk Lamp" "light" true 50 (some "yellow") none)
      (sampleShown "h3" "Left Lamp" "light" true 50 (some "yellow") none) = .ok (-1) ∧
    deviceSorter (sampleShown "h3" "Left Lamp" "light" true 50 (some "yellow") none)
      (sampleShown "h1" "Bright Lamp" "light" true 50 (some "yellow") none) = .ok (-1) ∧
    directionSnapshotPermuted.Perm directionSnapshot ∧
    deviceNames (reconcile [] directionSnapshot ⟨[], 0⟩) =
      .ok [ [JsName.str "Bright Lamp", JsName.str "Desk Lamp", JsName.str "Left Lamp"],
            [JsName.str "Bright Left Lamp"] ] ∧
    deviceNames (reconcile [] directionSnapshotPermuted ⟨[], 0⟩) =
      .ok [ [JsName.str "Left Lamp", JsName.str "Bright Lamp", JsName.str "Desk Lamp"],
            [JsName.str "Bright Left Lamp"] ] := by
  refine ⟨by rfl, by rfl, by rfl, by rfl, ?_, by rfl, by rfl⟩
  unfold directionSnapshotPermuted directionSnapshot
  exact ((List.Perm.swap _ _ _).trans ((List.Perm.swap _ _ _).cons _))

/-! ## C18: the envelope of a hub patch -/

/-- C18: `patchDevice` sends a `PATCH` request to the path `/devices/` followed by the
device id, and the body is an array of exactly one element, an object whose only
field is `attributes` holding the given attributes unchanged. -/
theorem patchDevice_envelope (deviceId : String) (attributes : JsonValue) :
    (patchDevice deviceId attributes).method = "PATCH" ∧
    (patchDevice deviceId attributes).path = "/devices/" ++ deviceId ∧
    ∃ element, (patchDevice deviceId attributes).body = JsonValue.arr [element] ∧
      element = JsonValue.obj [("attributes", attributes)] :=
  ⟨rfl, rfl, _, rfl, rfl⟩

/-! ## C19: the colour round trip -/

/-- C19: for each of the colours white, yellow and orange, a light whose
`colorTemperature` is the value the colour button sends for that colour is shown by
`transformDeviceData` with that colour. -/
theorem color_round_trip (c : String) (d : ApiDevice) (a : Attributes)
    (hc : c ∈ ["white", "yellow", "orange"]) (htype : d.type = "light")
    (hattr : d.attributes = some a)
    (htemp : a.colorTemperature = some (colorTemperatureOf c)) :
    ∃ t, transformDeviceData d = .ok t ∧ t.color = some c := by
  unfold transformDeviceData
  simp only [hattr, htype, if_true]
  refine ⟨_, rfl, ?_⟩
  simp only [List.mem_cons, List.mem_singleton, List.not_mem_nil, or_false] at hc
  rcases hc with e | e | e <;> subst e <;> simp only [htemp] <;> rfl

/-- C19 at the three colours: 4000 is shown white, 2700 yellow and 2200 orange. -/
theorem color_round_trip_witness :
    ["white", "yellow", "orange"].map colorTemperatureOf = [4000, 2700, 2200] ∧
    ["white", "yellow", "orange"].map (fun c => lightColor (some (colorTemperatureOf c))) =
      ["white", "yellow", "orange"] ∧
    ∃ t, transformDeviceData (sampleDevice "d2" "Lamp 10" "light" true 63 bedRoom) = .ok t ∧
      t.color = some "yellow" :=
  ⟨by decide, by decide,
    color_round_trip "yellow" (sampleDevice "d2" "Lamp 10" "light" true 63 bedRoom)
      { customName := some (JsName.str "Lamp 10"), isOn := some true, lightLevel := some 63,
        colorTemperature := some 2700, blindsCurrentLevel := some 63,
        batteryPercentage := some 80 }
      (by decide) (by rfl) (by rfl) (by rfl)⟩

/-! ## C20: a failed reconciliation leaves the rooms alone -/

/-- C20: when reconciling the fetched snapshot raises an error, in grouping, in the
transform or in sorting, `fetchAndProcessDevices` catches it and `homeData.rooms` is
exactly the room list from before the call. -/
theorem fetchAndProcessDevices_atomic (page : Page) (apiDevices : List ApiDevice)
    (cs2 : ColorState) (e : JsError)
    (h : reconcile page.rooms apiDevices page.colors = (cs2, .error e)) :
    (fetchAndProcessDevices (FetchResult.devices apiDevices) page).1.rooms = page.rooms ∧
    (fetchAndProcessDevices (FetchResult.devices apiDevices) page).2 = none := by
  unfold fetchAndProcessDevices
  simp only [h]
  constructor <;> first | rfl | trivial

/-- C20 at the snapshot with a light that has no `attributes`: the sample rooms stay
stored. -/
theorem fetchAndProcessDevices_atomic_witness :
    reconcile samplePage.rooms bareSnapshot samplePage.colors =
      (sampleColorsAfter, .error JsError.typeError) ∧
    (fetchAndProcessDevices (FetchResult.devices bareSnapshot) samplePage).1.rooms =
      sampleRooms ∧
    (fetchAndProcessDevices (FetchResult.devices bareSnapshot) samplePage).2 = none :=
  ⟨by rfl,
    fetchAndProcessDevices_atomic samplePage bareSnapshot sampleColorsAfter JsError.typeError
      (by rfl)⟩

/-! ## C21: a slider tick leaves the state store alone -/

/-- C21: the input handler of a slider returns the page globals exactly as it found
them, whatever the tick value, so the stored value and `on` flag of the device and
everything else in `homeData` are unchanged; a colour command issued on that page
afterwards therefore sends the stored value of the device from before the drag as
`lightLevel`, not the tick value. -/
theorem sliderInput_keeps_store (page : Page) (roomIndex deviceIndex : Nat) (device : Device)
    (newValue : Int) (now : Nat) (pending : Option Timer) (color : String)
    (hdev : deviceAt page roomIndex deviceIndex = some device) :
    ∃ next, sliderInput roomIndex deviceIndex newValue now page pending = .ok next ∧
      next.1 = page ∧
      deviceAt next.1 roomIndex deviceIndex = some device ∧
      ∃ after effects, colorButtonClick roomIndex deviceIndex color next.1 = .ok (after, effects) ∧
        patches effects =
          [(device.id,
            [("colorTemperature", AttrValue.num (colorTemperatureOf color)),
              ("lightLevel", AttrValue.num device.value)])] := by
  refine ⟨_, sliderInput_ok hdev newValue now pending, rfl, hdev, ?_⟩
  refine ⟨setDeviceAt page roomIndex deviceIndex { device with color := some color },
    [ Effect.patchIssued device.id
        [("colorTemperature", AttrValue.num (colorTemperatureOf color)),
          ("lightLevel", AttrValue.num device.value)],
      Effect.render ], ?_, rfl⟩
  unfold colorButtonClick
  simp only [hdev]

/-- C21 at `Lamp 10`, stored at 63: after a tick that drags its slider to 20 the page
is the sample page still, and choosing white sends `lightLevel: 63`. -/
theorem sliderInput_keeps_store_witness :
    deviceAt samplePage 1 1 =
      some (sampleShown "d2" "Lamp 10" "light" true 63 (some "yellow") none) ∧
    (sliderInput 1 1 20 0 samplePage none).map (fun next => next.1) = .ok samplePage ∧
    ∃ next, sliderInput 1 1 20 0 samplePage none = .ok next ∧
      next.1 = samplePage ∧
      deviceAt next.1 1 1 =
        some (sampleShown "d2" "Lamp 10" "light" true 63 (some "yellow") none) ∧
      ∃ after effects, colorButtonClick 1 1 "white" next.1 = .ok (after, effects) ∧
        patches effects =
          [((sampleShown "d2" "Lamp 10" "light" true 63 (some "yellow") none).id,
            [("colorTemperature", AttrValue.num (colorTemperatureOf "white")),
              ("lightLevel",
                AttrValue.num
                  (sampleShown "d2" "Lamp 10" "light" true 63 (some "yellow") none).value)])] :=
  ⟨by rfl, by rfl,
    sliderInput_keeps_store samplePage 1 1
      (sampleShown "d2" "Lamp 10" "light" true 63 (some "yellow") none) 20 0 none "white"
      (by rfl)⟩

end Denkigera
